import Mathlib

/-!
# Verification of the lego-flip-tracker profit/expense engine

A shallow embedding of the profit/expense allocation and aggregation engine of
the `lego-flip-tracker` repository, together with theorems settling the frozen
claims about it.

The repository snapshot holds three independently evolved variants of the app:

* **Variant A** (`src/app.js`, first part): inventory / sales / expenses model,
  with `sumExpensesByType`, `computeSaleNet`, `renderStats`, `renderCharts`.
* **Variant B** (`src/app.js`, second part, after the separator): single
  "flip" records plus an expenses store, with `buildExpenseAllocator`,
  `calcFlip`, `calcNet`.
* **Variant C** (`src/unnamed/part_000`): the earliest single-store variant.

Modelling conventions:

* JS numbers are modelled by `ℚ`; all claims are about exact arithmetic
  content (the spec's "within floating-point tolerance" reads as exact
  equality in this model).
* Numeric record fields are modelled post-`toNum`-coercion (on a finite
  number `toNum` is the identity), so they are plain `ℚ` fields.
* A JS `Map` that is only read through `get(k)` (with `|| 0` / `getD`
  defaulting) is modelled as a function built by the same left fold that the
  JS loop performs; `set` is function update (last write wins), accumulation
  is pointwise addition.
* JS object-literal property reads (`OBJ[key]`) consult the prototype chain:
  for an object literal, a key naming an `Object.prototype` member (e.g.
  `"toString"`) yields an inherited *truthy* function value.  This is modelled
  explicitly (`objectProtoProps`), since one claim turns on it.
* `new Date(string)` is a host builtin; it is modelled as an abstract parse
  function `pd : String → Option ℚ` (milliseconds since the epoch, `none` for
  an invalid date), passed as a parameter.
-/

namespace LegoFlip

/-! ## JS string / number primitives -/

/-- Whitespace recognised by `String.prototype.trim` (the forms relevant to
this code base). -/
def jsIsWS (c : Char) : Bool :=
  c = ' ' || c = '\t' || c = '\n' || c = '\r' || c = '\x0b' || c = '\x0c'

/-- Model of `String.prototype.trim` on a character list. -/
def jsTrimL (l : List Char) : List Char :=
  ((l.dropWhile jsIsWS).reverse.dropWhile jsIsWS).reverse

/-- Model of `String.prototype.trim`. -/
def jsTrimS (s : String) : String :=
  String.mk (jsTrimL s.data)

/-- Model of `String.prototype.toLowerCase`, restricted to ASCII case mapping (the
condition keywords compared against are ASCII). -/
def jsToLower (l : List Char) : List Char :=
  l.map Char.toLower

/-- Model of `String.prototype.includes`: `hasSub l sub` is true iff `sub` occurs as a
contiguous substring of `l`. -/
def hasSub : List Char → List Char → Bool
  | [], sub => sub.isEmpty
  | c :: rest, sub => sub.isPrefixOf (c :: rest) || hasSub rest sub

/-- Digit run to a natural number. -/
def digitsVal (l : List Char) : Nat :=
  l.foldl (fun a c => a * 10 + (c.toNat - 48)) 0

/-- The unsigned part of a JS string numeric literal: decimal digits with an
optional fractional part (`"12"`, `"12."`, `"12.5"`, `".5"`), or `"Infinity"`
(a non-finite value, `none`).  This models the decimal forms of the
`Number(string)` builtin used by this code base; exponent and radix-prefixed
literals are outside the model and read as `none` (not-a-number), which is
also what the currency strings at issue produce in JS. -/
def parseDec (l : List Char) : Option ℚ :=
  if l = "Infinity".data then none
  else
    let intPart := l.takeWhile Char.isDigit
    let rest := l.dropWhile Char.isDigit
    match rest with
    | [] => if intPart.isEmpty then none else some (digitsVal intPart : ℚ)
    | '.' :: frac =>
      if frac.all Char.isDigit && !(intPart.isEmpty && frac.isEmpty) then
        some ((digitsVal intPart : ℚ) + (digitsVal frac : ℚ) / (10 ^ frac.length))
      else none
    | _ => none

/-- Optional sign in front of the unsigned literal. -/
def parseSigned : List Char → Option ℚ
  | '+' :: rest => parseDec rest
  | '-' :: rest => (parseDec rest).map Neg.neg
  | l => parseDec l

/-- Model of `Number(string)`: trim, empty means `0`, otherwise parse a numeric
literal; `none` models a non-finite result (`NaN` / `±Infinity`). -/
def jsNumber (s : String) : Option ℚ :=
  let t := jsTrimL s.data
  if t.isEmpty then some 0 else parseSigned t

/-- Model of `Math.round`: round half toward positive infinity. -/
def jsRound (q : ℚ) : ℤ := ⌊q + 1/2⌋

/-- The JS values the numeric coercers are fed in this code base:
`null`, `undefined`, a number (with `none` standing for a non-finite one), or
a string. -/
inductive JSVal where
  | vnull
  | vundef
  | num (x : Option ℚ)
  | str (s : String)
deriving DecidableEq

/-! ## Shared normalizers -/

/-- Keys of `Object.prototype` (data and accessor properties).  For an object
literal `OBJ`, a bracket read `OBJ[k]` with `k` one of these names yields the
inherited member — a function or object, hence *truthy* — even though `k` is
not an own property of `OBJ`. -/
def objectProtoProps : List String :=
  ["constructor", "hasOwnProperty", "isPrototypeOf", "propertyIsEnumerable",
   "toLocaleString", "toString", "valueOf", "__defineGetter__",
   "__defineSetter__", "__lookupGetter__", "__lookupSetter__", "__proto__"]

/-- Own properties of the `CONDITION_LABELS` object literal
(`src/app.js` lines 115–120 and 2119–2124, identical in both variants). -/
def CONDITION_LABELS (k : String) : Option String :=
  if k = "new_sealed" then some "New (sealed)"
  else if k = "new_openbox" then some "New (open box)"
  else if k = "used_complete" then some "Used (complete)"
  else if k = "used_incomplete" then some "Used (incomplete)"
  else none

/-- Truthiness of the JS read `CONDITION_LABELS[k]`: an own property yields
its (non-empty, hence truthy) label string; otherwise the read falls through
to `Object.prototype`, whose members are all truthy; any other key reads as
`undefined` (falsy). -/
def condLabelTruthy (k : String) : Bool :=
  match CONDITION_LABELS k with
  | some _ => true
  | none => objectProtoProps.contains k

/-- Model of `normalizeCondition` (`src/app.js` lines 122–125 and 2126–2129):
`const key = (v || "").trim(); return CONDITION_LABELS[key] ? key : "used_incomplete";` -/
def normalizeCondition (v : String) : String :=
  let key := jsTrimS v
  if condLabelTruthy key then key else "used_incomplete"

/-- Model of `normalizeBatch`: trim (missing modelled as `""`). -/
def normalizeBatch (v : String) : String := jsTrimS v

/-- Model of `ym` (`src/app.js` lines 28–31): `"YYYY-MM-DD"` to `"YYYY-MM"`, `none`
when the regex `^\d{4}-\d{2}-\d{2}$` does not match (or the string is empty,
which also fails the regex). -/
def ymOK (s : String) : Bool :=
  match s.data with
  | [a, b, c, d, '-', e, f, '-', g, h] =>
    a.isDigit && b.isDigit && c.isDigit && d.isDigit &&
    e.isDigit && f.isDigit && g.isDigit && h.isDigit
  | _ => false

def ym (dateStr : String) : Option String :=
  if dateStr = "" || !ymOK dateStr then none
  else some (String.mk (dateStr.data.take 7))

/-- Variant A `toNum` (`src/app.js` lines 9–16): `null`/`undefined` → 0, a
number passes `Number.isFinite` or falls back to 0, a string is trimmed,
stripped of every `"$"` and `","`, and fed to `Number`, falling back to 0 for
a non-finite parse. -/
def toNum : JSVal → ℚ
  | .vnull => 0
  | .vundef => 0
  | .num x => x.getD 0
  | .str s =>
    (jsNumber (String.mk (((jsTrimL s.data).filter (fun c => c ≠ '$')).filter
      (fun c => c ≠ ',')))).getD 0

/-- Variant B / variant C `toNum` (`src/app.js` lines 2027–2030,
`src/unnamed/part_000` lines 11–14): `const n = Number(v); return
Number.isFinite(n) ? n : 0;` — no currency stripping (`Number(null) = 0`,
`Number(undefined) = NaN`). -/
def toNumB : JSVal → ℚ
  | .vnull => 0
  | .vundef => 0
  | .num x => x.getD 0
  | .str s => (jsNumber s).getD 0

/-- Model of `conditionFromText` (`src/app.js` lines 1389–1397), the CSV-import
condition matcher. -/
def conditionFromText (v : String) : String :=
  let s := jsToLower (jsTrimL v.data)
  if s.isEmpty then "used_incomplete"
  else if hasSub s "sealed".data then "new_sealed"
  else if hasSub s "open".data then "new_openbox"
  else if hasSub s "complete".data then "used_complete"
  else if hasSub s "incomplete".data then "used_incomplete"
  else normalizeCondition (String.mk s)

/-! ## Variant A: inventory / sales / expenses engine (`src/app.js` part 1) -/

/-- An inventory record, restricted to the fields the aggregation engine
reads.  Numeric fields are post-`toNum` values; a missing `status` is `""`. -/
structure Inv where
  id : String
  status : String
  condition : String
  batch : String
  purchaseDate : String
  purchaseCost : ℚ
  materialCost : ℚ
deriving DecidableEq

/-- A sale record, restricted to the fields the aggregation engine reads. -/
structure Sale where
  id : String
  inventoryId : String
  soldDate : String
  itemPrice : ℚ
  shippingCharged : ℚ
  shippingPaid : ℚ
  platformFees : ℚ
  soldOn : String
  city : String
deriving DecidableEq

/-- An expense record. -/
structure Expense where
  category : String
  amount : ℚ
  date : String
deriving DecidableEq

/-- Model of `inv.status || "in_stock"`: every status read defaults the falsy empty
string to `"in_stock"`. -/
def invStatus (inv : Inv) : String :=
  if inv.status = "" then "in_stock" else inv.status

/-- Model of `invTotalCost` (`src/app.js` lines 306–308). -/
def invTotalCost (inv : Inv) : ℚ := inv.purchaseCost + inv.materialCost

/-- Model of `saleItemRevenue` (`src/app.js` lines 311–313). -/
def saleItemRevenue (s : Sale) : ℚ := s.itemPrice

/-- Model of `saleShippingRevenue` (`src/app.js` lines 314–316). -/
def saleShippingRevenue (s : Sale) : ℚ := s.shippingCharged

/-- Model of `saleDirectCosts` (`src/app.js` lines 319–321). -/
def saleDirectCosts (inv : Inv) (s : Sale) : ℚ :=
  invTotalCost inv + s.shippingPaid + s.platformFees

/-- Model of `allInv.find((x) => x.id === s.inventoryId)`. -/
def findInv (allInv : List Inv) (iid : String) : Option Inv :=
  allInv.find? (fun x => x.id == iid)

/-- The three overhead buckets of `sumExpensesByType`. -/
structure Buckets where
  material : ℚ
  shipping : ℚ
  other : ℚ
deriving DecidableEq

/-- The category-to-bucket loop of `sumExpensesByType` (`src/app.js` lines
794–804): `Supplies`/`Parts` → material, `Shipping` → shipping, everything
else → other; a zero (falsy) amount is skipped. -/
def expenseTotalsA (expenses : List Expense) : Buckets :=
  expenses.foldl
    (fun t e =>
      let cat := jsTrimS e.category
      let amt := e.amount
      if amt = 0 then t
      else if cat = "Supplies" || cat = "Parts" then
        { t with material := t.material + amt }
      else if cat = "Shipping" then { t with shipping := t.shipping + amt }
      else { t with other := t.other + amt })
    ⟨0, 0, 0⟩

/-- One step of the revenue-weight loop of `sumExpensesByType` (`src/app.js`
lines 807–815): skip a sale whose inventory item is missing or not sold,
otherwise add its item revenue to the running total and record it in the
`revBySaleId` map (`Map.set`: function update, last write wins). -/
def revMapStep (allInv : List Inv) (acc : (String → Option ℚ) × ℚ) (s : Sale) :
    (String → Option ℚ) × ℚ :=
  match findInv allInv s.inventoryId with
  | none => acc
  | some inv =>
    if invStatus inv ≠ "sold" then acc
    else
      (fun k => if k = s.id then some (saleItemRevenue s) else acc.1 k,
       acc.2 + saleItemRevenue s)

/-- The revenue-weight loop of `sumExpensesByType` over the scoped sales. -/
def revMapA (allInv : List Inv) (salesInScope : List Sale) :
    (String → Option ℚ) × ℚ :=
  salesInScope.foldl (revMapStep allInv) (fun _ => none, 0)

/-- The raw scope revenue total (`totalRev` before the `|| 0.00001`
fallback). -/
def scopeRevTotal (allInv : List Inv) (salesInScope : List Sale) : ℚ :=
  (revMapA allInv salesInScope).2

/-- The revenue a single sale contributes to the weight loop of
`sumExpensesByType`: its item revenue when its inventory item resolves and is
sold, nothing (`none`) otherwise. -/
def saleScopeRev (allInv : List Inv) (s : Sale) : Option ℚ :=
  match findInv allInv s.inventoryId with
  | none => none
  | some inv => if invStatus inv ≠ "sold" then none else some (saleItemRevenue s)

/-- The result record of `sumExpensesByType`. -/
structure AllocA where
  totals : Buckets
  revBySaleId : String → Option ℚ
  totalRev : ℚ

/-- Model of `sumExpensesByType` (`src/app.js` lines 787–818).  Note the return value
`totalRev: totalRev || 0.00001` — a zero total is replaced by the sentinel
`0.00001`, it is *not* handled by an equal split. -/
def sumExpensesByType (allInv : List Inv) (expenses : List Expense)
    (salesInScope : List Sale) : AllocA :=
  let rm := revMapA allInv salesInScope
  { totals := expenseTotalsA expenses
    revBySaleId := rm.1
    totalRev := if rm.2 = 0 then 1 / 100000 else rm.2 }

/-- The allocation weight `w` computed inside `computeSaleNet`
(`src/app.js` line 824): `(alloc.revBySaleId.get(sale.id) || 0) / alloc.totalRev`. -/
def saleWeight (alloc : AllocA) (sale : Sale) : ℚ :=
  ((alloc.revBySaleId sale.id).getD 0) / alloc.totalRev

/-- The result record of `computeSaleNet`. -/
structure NetA where
  revenue : ℚ
  directCosts : ℚ
  allocMaterial : ℚ
  allocShipping : ℚ
  allocOther : ℚ
  netProfit : ℚ
deriving DecidableEq

/-- Model of `computeSaleNet` (`src/app.js` lines 820–839). -/
def computeSaleNet (inv : Inv) (sale : Sale) (alloc : AllocA) : NetA :=
  let revenue := saleItemRevenue sale + saleShippingRevenue sale
  let direct := saleDirectCosts inv sale
  let w := saleWeight alloc sale
  { revenue := revenue
    directCosts := direct
    allocMaterial := alloc.totals.material * w
    allocShipping := alloc.totals.shipping * w
    allocOther := alloc.totals.other * w
    netProfit := revenue - direct - alloc.totals.material * w
      - alloc.totals.shipping * w - alloc.totals.other * w }

/-- Model of `daysBetween` (`src/app.js` lines 51–59).  `pd` abstracts the
`new Date(...)`/`isNaN` builtin pair: the parsed time in milliseconds, or
`none` for an invalid date.  An empty (falsy) date string short-circuits
first; the difference of two finite times is finite, so the
`Number.isFinite(ms)` guard cannot fire in the model. -/
def daysBetween (pd : String → Option ℚ) (dateA dateB : String) : Option ℤ :=
  if dateA = "" || dateB = "" then none
  else
    match pd dateA, pd dateB with
    | some a, some b => some (max 0 (jsRound ((b - a) / (1000 * 60 * 60 * 24))))
    | _, _ => none

/-- Ids of sold inventory items (`renderStats`, lines 855–857). -/
def soldInvIds (allInv : List Inv) : List String :=
  (allInv.filter (fun i => invStatus i == "sold")).map Inv.id

/-- Model of `allSales.filter((s) => soldInvIds.has(s.inventoryId))` (line 859). -/
def statsScopeSales (allInv : List Inv) (allSales : List Sale) : List Sale :=
  allSales.filter (fun s => (soldInvIds allInv).contains s.inventoryId)

/-- Model of `statsRangeFilter` (`src/app.js` lines 756–776): `startStr` is the
cutoff date string computed from the selected range (`none` for "all");
a sale passes when `(s.soldDate || "") >= startStr`. -/
def statsRangeFilter (startStr : Option String) (sales : List Sale) : List Sale :=
  match startStr with
  | none => sales
  | some st => sales.filter (fun s => st ≤ s.soldDate)

/-- Model of `statsBatchFilterSales` (`src/app.js` lines 778–785): `bsel` is the
selected batch (`"all"` for no filter); a missing inventory item reads as
batch `""` (`inv?.batch` is `undefined`). -/
def statsBatchFilterSales (allInv : List Inv) (bsel : String)
    (sales : List Sale) : List Sale :=
  if bsel = "all" then sales
  else sales.filter (fun s =>
    normalizeBatch (((findInv allInv s.inventoryId).map Inv.batch).getD "") == bsel)

/-- Model of `getStatsBatchScopedInventory` (`src/app.js` lines 841–850). -/
def getStatsBatchScopedInventory (bsel : String) (allInv : List Inv) : List Inv :=
  let base := allInv.filter (fun i => !(invStatus i == "exchanged"))
  if bsel = "all" then base
  else base.filter (fun i => normalizeBatch i.batch == bsel)

/-- The running totals of the `renderStats` per-sale loop. -/
structure StatsAcc where
  itemRevenue : ℚ
  shippingCharged : ℚ
  purchaseCost : ℚ
  materialTotal : ℚ
  shippingPaidDirect : ℚ
  platformFeesDirect : ℚ
  shippingOH : ℚ
  otherOH : ℚ
  netProfit : ℚ
  totalDays : ℤ
  daysCount : ℕ
deriving DecidableEq

/-- One iteration of the `renderStats` loop (`src/app.js` lines 886–911):
skip a sale whose inventory item is missing, otherwise accumulate the
per-sale economics and, when `daysBetween` is non-null, the days-to-sell. -/
def statsAccStep (pd : String → Option ℚ) (allInv : List Inv) (alloc : AllocA)
    (acc : StatsAcc) (s : Sale) : StatsAcc :=
  match findInv allInv s.inventoryId with
  | none => acc
  | some inv =>
    let net := computeSaleNet inv s alloc
    let acc' : StatsAcc :=
      { itemRevenue := acc.itemRevenue + saleItemRevenue s
        shippingCharged := acc.shippingCharged + saleShippingRevenue s
        purchaseCost := acc.purchaseCost + inv.purchaseCost
        materialTotal := acc.materialTotal + inv.materialCost + net.allocMaterial
        shippingPaidDirect := acc.shippingPaidDirect + s.shippingPaid
        platformFeesDirect := acc.platformFeesDirect + s.platformFees
        shippingOH := acc.shippingOH + net.allocShipping
        otherOH := acc.otherOH + net.allocOther
        netProfit := acc.netProfit + net.netProfit
        totalDays := acc.totalDays
        daysCount := acc.daysCount }
    match daysBetween pd inv.purchaseDate s.soldDate with
    | some d => { acc' with totalDays := acc'.totalDays + d,
                            daysCount := acc'.daysCount + 1 }
    | none => acc'

/-- The KPI values `renderStats` computes (`src/app.js` lines 853–951),
before they are written into the DOM. -/
structure StatsOut where
  itemRevenue : ℚ
  shippingCharged : ℚ
  purchaseCost : ℚ
  materialTotal : ℚ
  shippingPaidDirect : ℚ
  platformFeesDirect : ℚ
  shippingOH : ℚ
  otherOH : ℚ
  netProfit : ℚ
  totalDays : ℤ
  daysCount : ℕ
  salesCount : ℕ
  grossTake : ℚ
  margin : ℚ
  avgProfit : ℚ
  investedUnsold : ℚ
  unsoldCount : ℕ
  sellThrough : ℚ
  avgDays : ℤ
deriving DecidableEq

/-- Model of `renderStats` (`src/app.js` lines 853–953), as the pure computation of
its KPI values.  `startStr` and `bsel` stand for the range/batch controls. -/
def renderStats (pd : String → Option ℚ) (startStr : Option String)
    (bsel : String) (allInv : List Inv) (allSales : List Sale)
    (allExpenses : List Expense) : StatsOut :=
  let sales := statsBatchFilterSales allInv bsel
    (statsRangeFilter startStr (statsScopeSales allInv allSales))
  let alloc := sumExpensesByType allInv allExpenses sales
  let a := sales.foldl (statsAccStep pd allInv alloc)
    ⟨0, 0, 0, 0, 0, 0, 0, 0, 0, 0, 0⟩
  let grossTake := a.itemRevenue + a.shippingCharged
  let invScope := getStatsBatchScopedInventory bsel allInv
  let unsoldInv := invScope.filter (fun i => invStatus i == "in_stock")
  let soldInv := invScope.filter (fun i => invStatus i == "sold")
  { itemRevenue := a.itemRevenue
    shippingCharged := a.shippingCharged
    purchaseCost := a.purchaseCost
    materialTotal := a.materialTotal
    shippingPaidDirect := a.shippingPaidDirect
    platformFeesDirect := a.platformFeesDirect
    shippingOH := a.shippingOH
    otherOH := a.otherOH
    netProfit := a.netProfit
    totalDays := a.totalDays
    daysCount := a.daysCount
    salesCount := sales.length
    grossTake := grossTake
    margin := if grossTake > 0 then a.netProfit / grossTake * 100 else 0
    avgProfit := if sales.length ≠ 0 then a.netProfit / (sales.length : ℚ) else 0
    investedUnsold := (unsoldInv.map invTotalCost).sum
    unsoldCount := unsoldInv.length
    sellThrough := ((soldInv.length : ℚ) / ((max 1 invScope.length : ℕ) : ℚ)) * 100
    avgDays := if a.daysCount ≠ 0
      then jsRound ((a.totalDays : ℚ) / (a.daysCount : ℚ)) else 0 }

/-! ### Variant A charts (`renderCharts`, `src/app.js` lines 963–1055) -/

/-- The per-sale rows `renderCharts` builds (lines 967–972): join each sale
to its inventory item, silently dropping sales whose item is missing. -/
def chartRows (allInv : List Inv) (sales : List Sale) : List (Inv × Sale) :=
  sales.filterMap (fun s => (findInv allInv s.inventoryId).map (fun inv => (inv, s)))

/-- A JS `Map` used in accumulate-then-read-with-`|| 0` style, modelled as
the function the loop builds: start from the all-zero map, and for each
element with a key add its value at that key. -/
def tallyFold (f : α → Option (String × ℚ)) (l : List α) : String → ℚ :=
  l.foldl
    (fun m x =>
      match f x with
      | none => m
      | some kv => fun q => if q = kv.1 then m q + kv.2 else m q)
    (fun _ => 0)

/-- Model of `profitByCond` (lines 1016–1021): net profit per normalized condition. -/
def profitByCond (alloc : AllocA) (rows : List (Inv × Sale)) : String → ℚ :=
  tallyFold (fun r =>
    some (normalizeCondition r.1.condition, (computeSaleNet r.1 r.2 alloc).netProfit)) rows

/-- Model of `soldByCond` (lines 1016–1021): sold count per normalized condition. -/
def soldByCond (rows : List (Inv × Sale)) : String → ℚ :=
  tallyFold (fun r => some (normalizeCondition r.1.condition, 1)) rows

/-- Model of `invCountByCond` (lines 1028–1033): inventory count per normalized
condition over all non-exchanged items. -/
def invCountByCond (allInv : List Inv) : String → ℚ :=
  tallyFold (fun inv =>
    if invStatus inv == "exchanged" then none
    else some (normalizeCondition inv.condition, 1)) allInv

/-- The fixed bucket order of the condition charts (line 1023 and 2681). -/
def condOrder : List String :=
  ["new_sealed", "new_openbox", "used_complete", "used_incomplete"]

/-- Model of `condProfitVals` (line 1025). -/
def condProfitVals (alloc : AllocA) (rows : List (Inv × Sale)) : List ℚ :=
  condOrder.map (fun k => profitByCond alloc rows k)

/-- One entry of `sellThroughVals` (lines 1034–1038):
`total ? (sold / total) * 100 : 0`. -/
def sellThroughEntry (allInv : List Inv) (rows : List (Inv × Sale))
    (k : String) : ℚ :=
  let sold := soldByCond rows k
  let total := invCountByCond allInv k
  if total = 0 then 0 else sold / total * 100

/-- Model of `sellThroughVals` (lines 1034–1038). -/
def sellThroughVals (allInv : List Inv) (rows : List (Inv × Sale)) : List ℚ :=
  condOrder.map (sellThroughEntry allInv rows)

/-! ## Variant B: flips + month-scoped expense allocator (`src/app.js` part 2) -/

/-- A flip record (variant B), restricted to the fields the engine reads. -/
structure Flip where
  id : String
  soldDate : String
  purchaseDate : String
  condition : String
  batch : String
  purchaseCost : ℚ
  materialCost : ℚ
  soldPrice : ℚ
  fees : ℚ
  soldOn : String
deriving DecidableEq

/-- Model of `isSold` (`src/app.js` lines 2300–2303): a truthy (non-empty) sold date
and a positive sold price. -/
def isSold (f : Flip) : Bool :=
  !(f.soldDate == "") && decide (0 < f.soldPrice)

/-- The result of `calcFlip`. -/
structure FlipCalc where
  revenue : ℚ
  purchase : ℚ
  material : ℚ
  shipping : ℚ
  directCost : ℚ
  profit : ℚ
  sold : Bool
deriving DecidableEq

/-- Model of `calcFlip` (`src/app.js` lines 2308–2316). -/
def calcFlip (item : Flip) : FlipCalc :=
  let purchase := item.purchaseCost
  let material := item.materialCost
  let shipping := item.fees
  let revenue := item.soldPrice
  let directCost := purchase + material + shipping
  { revenue := revenue
    purchase := purchase
    material := material
    shipping := shipping
    directCost := directCost
    profit := revenue - directCost
    sold := isSold item }

/-- Own properties of the `EXPENSE_CATEGORY_MAP` object literal
(`src/app.js` lines 2161–2168). -/
def EXPENSE_CATEGORY_MAP (k : String) : Option String :=
  if k = "Supplies" then some "material"
  else if k = "Parts" then some "material"
  else if k = "Shipping" then some "shipping"
  else if k = "Gas" then some "other"
  else if k = "Fees (other)" then some "other"
  else if k = "Other" then some "other"
  else none

/-- The bucket read `EXPENSE_CATEGORY_MAP[cat] || "other"` (line 2328).
A category naming an `Object.prototype` member reads the inherited truthy
function instead of a bucket string; that degenerate value is modelled as
`none` (such a "bucket" names none of the three real bucket fields). -/
def expenseBucket (cat : String) : Option String :=
  match EXPENSE_CATEGORY_MAP cat with
  | some b => some b
  | none => if objectProtoProps.contains cat then none else some "other"

/-- A per-month bucket record `{ material, shipping, other, total }`
(line 2330); also the shape of the allocated-expense result. -/
structure MBuckets where
  material : ℚ
  shipping : ℚ
  other : ℚ
  total : ℚ
deriving DecidableEq

/-- Model of `obj[bucket] += amt; obj.total += amt` (lines 2332–2333).  When `bucket`
is one of the three real bucket names the named field and `total` both grow;
a degenerate (inherited-property) bucket writes a junk key, so only `total`
grows. -/
def addToBucket (b : MBuckets) (bucket : Option String) (amt : ℚ) : MBuckets :=
  let b' :=
    match bucket with
    | some "material" => { b with material := b.material + amt }
    | some "shipping" => { b with shipping := b.shipping + amt }
    | some "other" => { b with other := b.other + amt }
    | _ => b
  { b' with total := b'.total + amt }

/-- Model of `expenseBucketsByMonth` (`src/app.js` lines 2321–2336): the month-keyed
`Map` of bucket records, as the function the loop builds (`none` = month
absent). -/
def expenseBucketsByMonth (expenses : List Expense) : String → Option MBuckets :=
  expenses.foldl
    (fun m e =>
      match ym e.date with
      | none => m
      | some key =>
        let amt := e.amount
        if amt ≤ 0 then m
        else
          let obj := (m key).getD ⟨0, 0, 0, 0⟩
          fun k => if k = key then
              some (addToBucket obj (expenseBucket (jsTrimS e.category)) amt)
            else m k)
    (fun _ => none)

/-- Model of `soldRevByMonth` (`src/app.js` lines 2346–2355): total sold revenue per
sold month (a missing month reads as 0 via `get(key) || 0`). -/
def soldRevByMonth (flips : List Flip) : String → ℚ :=
  tallyFold (fun f =>
    if isSold f then (ym f.soldDate).map (fun k => (k, f.soldPrice)) else none) flips

/-- Model of `soldCountByMonth` (`src/app.js` lines 2347–2354): sold count per month. -/
def soldCountByMonth (flips : List Flip) : String → ℚ :=
  tallyFold (fun f =>
    if isSold f then (ym f.soldDate).map (fun k => (k, 1)) else none) flips

/-- Model of `allocatedExpenseForFlip` (`src/app.js` lines 2357–2379), the closure
returned by `buildExpenseAllocator` (lines 2342–2382), with the
precomputed month maps inlined. -/
def allocatedExpenseForFlip (flips : List Flip) (expenses : List Expense)
    (flip : Flip) : MBuckets :=
  if !isSold flip then ⟨0, 0, 0, 0⟩
  else
    match ym flip.soldDate with
    | none => ⟨0, 0, 0, 0⟩
    | some key =>
      match expenseBucketsByMonth expenses key with
      | none => ⟨0, 0, 0, 0⟩
      | some monthExp =>
        let totalRev := soldRevByMonth flips key
        let count := soldCountByMonth flips key
        let rev := flip.soldPrice
        let share := if totalRev > 0 then rev / totalRev
          else if count > 0 then 1 / count else 0
        { material := monthExp.material * share
          shipping := monthExp.shipping * share
          other := monthExp.other * share
          total := monthExp.total * share }

/-- The result of `calcNet`. -/
structure NetB where
  base : FlipCalc
  alloc : MBuckets
  profitNet : ℚ
deriving DecidableEq

/-- Model of `calcNet` (`src/app.js` lines 2387–2392). -/
def calcNet (flip : Flip) (flips : List Flip) (expenses : List Expense) : NetB :=
  let base := calcFlip flip
  let alloc := allocatedExpenseForFlip flips expenses flip
  { base := base, alloc := alloc, profitNet := base.profit - alloc.total }

/-- Model of `profitByCond` of the variant-B charts (`src/app.js` lines 2674–2680):
net profit per normalized condition over sold flips. -/
def profitByCondB (flips : List Flip) (expenses : List Expense) : String → ℚ :=
  tallyFold (fun f =>
    if isSold f then
      some (normalizeCondition f.condition, (calcNet f flips expenses).profitNet)
    else none) flips

/-- Model of `condVals` of the variant-B condition chart (line 2683). -/
def condValsB (flips : List Flip) (expenses : List Expense) : List ℚ :=
  condOrder.map (fun k => profitByCondB flips expenses k)

/-! ## Spec-side definition (for the refinement claims C1/C6)

`specAllocationWeight` is written from the spec's words (§4.2 step 3 /
claim C1), *not* from the code: "allocation weight = (this sale's revenue) /
(total revenue in its scope).  If total scope revenue is zero, fall back to
an equal split among the sales in that scope (1/count); if count is also
zero, allocation is zero." -/

def specAllocationWeight (totalRev count rev : ℚ) : ℚ :=
  if totalRev = 0 then (if count = 0 then 0 else 1 / count)
  else rev / totalRev

/-- Scaling a month's bucket record by a weight (the claim's "allocated
amount = scope bucket total × weight", for all four stored fields). -/
def scaleBuckets (b : MBuckets) (w : ℚ) : MBuckets :=
  { material := b.material * w
    shipping := b.shipping * w
    other := b.other * w
    total := b.total * w }

/-! ## List helper lemmas -/

theorem sum_map_mul_right (l : List α) (f : α → ℚ) (c : ℚ) :
    (l.map (fun x => f x * c)).sum = (l.map f).sum * c := by
  induction l with
  | nil => simp
  | cons x xs ih => simp [ih, add_mul]

theorem sum_map_mul_left (l : List α) (f : α → ℚ) (c : ℚ) :
    (l.map (fun x => c * f x)).sum = c * (l.map f).sum := by
  induction l with
  | nil => simp
  | cons x xs ih => simp [ih, mul_add]

theorem sum_map_ite_filter (l : List α) (p : α → Bool) (g : α → ℚ) :
    (l.map (fun x => if p x then g x else 0)).sum = ((l.filter p).map g).sum := by
  induction l with
  | nil => simp
  | cons x xs ih =>
    by_cases h : p x <;> simp [List.filter_cons, h, ih]

theorem sum_map_one (l : List α) : (l.map (fun _ => (1 : ℚ))).sum = l.length := by
  induction l with
  | nil => simp
  | cons x xs ih => simp [ih, add_comm]

theorem sum_map_one_filter (l : List α) (p : α → Bool) :
    ((l.filter p).map (fun _ => (1 : ℚ))).sum = (l.countP p : ℚ) := by
  rw [List.countP_eq_length_filter, sum_map_one]

/-- The generalized-accumulator form of a `tallyFold` read: the value at `k`
is the initial value plus the sum of the contributions to `k`. -/
theorem tallyFold_go (f : α → Option (String × ℚ)) (l : List α)
    (m : String → ℚ) (k : String) :
    (l.foldl
      (fun m x =>
        match f x with
        | none => m
        | some kv => fun q => if q = kv.1 then m q + kv.2 else m q) m) k
      = m k + (l.map (fun x =>
          match f x with
          | none => 0
          | some kv => if kv.1 = k then kv.2 else 0)).sum := by
  induction l generalizing m with
  | nil => simp
  | cons x xs ih =>
    simp only [List.foldl_cons, List.map_cons, List.sum_cons]
    cases hfx : f x with
    | none => rw [ih]; ring
    | some kv =>
      rw [ih]
      by_cases hk : kv.1 = k
      · subst hk; simp [add_assoc]
      · have hk' : ¬(k = kv.1) := fun h => hk h.symm
        simp [hk, hk']

/-- A `tallyFold` read is the sum over the list of per-element
contributions. -/
theorem tallyFold_apply (f : α → Option (String × ℚ)) (l : List α) (k : String) :
    tallyFold f l k = (l.map (fun x =>
      match f x with
      | none => 0
      | some kv => if kv.1 = k then kv.2 else 0)).sum := by
  simpa using tallyFold_go f l (fun _ => 0) k

/-! ## Closed forms of the tally maps -/

theorem soldRevByMonth_eq (flips : List Flip) (k : String) :
    soldRevByMonth flips k
      = ((flips.filter (fun f => isSold f && (ym f.soldDate == some k))).map
          Flip.soldPrice).sum := by
  rw [soldRevByMonth, tallyFold_apply, ← sum_map_ite_filter]
  refine congrArg List.sum (List.map_congr_left fun f _ => ?_)
  cases hs : isSold f
  · simp [hs]
  · cases hy : ym f.soldDate
    · simp [hs, hy]
    · rename_i m
      by_cases hm : m = k <;> simp [hs, hy, hm]

theorem soldCountByMonth_eq (flips : List Flip) (k : String) :
    soldCountByMonth flips k
      = (flips.countP (fun f => isSold f && (ym f.soldDate == some k)) : ℚ) := by
  rw [soldCountByMonth, tallyFold_apply, ← sum_map_one_filter, ← sum_map_ite_filter]
  refine congrArg List.sum (List.map_congr_left fun f _ => ?_)
  cases hs : isSold f
  · simp [hs]
  · cases hy : ym f.soldDate
    · simp [hs, hy]
    · rename_i m
      by_cases hm : m = k <;> simp [hs, hy, hm]

theorem soldByCond_eq (rows : List (Inv × Sale)) (k : String) :
    soldByCond rows k
      = (rows.countP (fun r => normalizeCondition r.1.condition == k) : ℚ) := by
  rw [soldByCond, tallyFold_apply, ← sum_map_one_filter, ← sum_map_ite_filter]
  refine congrArg List.sum (List.map_congr_left fun r _ => ?_)
  by_cases hc : normalizeCondition r.1.condition = k <;> simp [hc]

theorem invCountByCond_eq (allInv : List Inv) (k : String) :
    invCountByCond allInv k
      = (allInv.countP (fun i =>
          !(invStatus i == "exchanged") && (normalizeCondition i.condition == k)) : ℚ) := by
  rw [invCountByCond, tallyFold_apply, ← sum_map_one_filter, ← sum_map_ite_filter]
  refine congrArg List.sum (List.map_congr_left fun i _ => ?_)
  cases hx : invStatus i == "exchanged"
  · by_cases hc : normalizeCondition i.condition = k <;> simp [hx, hc]
  · simp [hx]

theorem profitByCond_eq_zero (alloc : AllocA) (rows : List (Inv × Sale))
    (k : String) (h : ∀ r ∈ rows, normalizeCondition r.1.condition ≠ k) :
    profitByCond alloc rows k = 0 := by
  rw [profitByCond, tallyFold_apply]
  apply List.sum_eq_zero
  intro x hx
  rcases List.mem_map.mp hx with ⟨r, hr, rfl⟩
  simp [h r hr]

theorem profitByCondB_eq_zero (flips : List Flip) (expenses : List Expense)
    (k : String) (h : ∀ f ∈ flips, isSold f = true → normalizeCondition f.condition ≠ k) :
    profitByCondB flips expenses k = 0 := by
  rw [profitByCondB, tallyFold_apply]
  apply List.sum_eq_zero
  intro x hx
  rcases List.mem_map.mp hx with ⟨f, hf, rfl⟩
  cases hs : isSold f
  · simp [hs]
  · simp [hs, h f hf hs]

/-! ## The `sumExpensesByType` revenue map -/

theorem revMap_go_snd (allInv : List Inv) (l : List Sale)
    (acc : (String → Option ℚ) × ℚ) :
    (l.foldl (revMapStep allInv) acc).2
      = acc.2 + (l.map (fun s => (saleScopeRev allInv s).getD 0)).sum := by
  induction l generalizing acc with
  | nil => simp
  | cons s t ih =>
    simp only [List.foldl_cons, List.map_cons, List.sum_cons]
    rw [ih]
    cases hf : findInv allInv s.inventoryId
    · simp [revMapStep, saleScopeRev, hf]
    · rename_i inv
      by_cases hst : invStatus inv ≠ "sold"
      · simp [revMapStep, saleScopeRev, hf, hst]
      · simp only [revMapStep, saleScopeRev, hf, hst, if_neg, ite_false,
          Option.getD_some]
        simp [hst]
        ring

theorem scopeRevTotal_eq (allInv : List Inv) (l : List Sale) :
    scopeRevTotal allInv l
      = (l.map (fun s => (saleScopeRev allInv s).getD 0)).sum := by
  simpa using revMap_go_snd allInv l (fun _ => none, 0)

theorem revMap_go_fst_notmem (allInv : List Inv) (l : List Sale)
    (acc : (String → Option ℚ) × ℚ) (k : String) (hk : k ∉ l.map Sale.id) :
    (l.foldl (revMapStep allInv) acc).1 k = acc.1 k := by
  induction l generalizing acc with
  | nil => rfl
  | cons s t ih =>
    simp only [List.map_cons, List.mem_cons, not_or] at hk
    simp only [List.foldl_cons]
    rw [ih _ hk.2, revMapStep]
    cases hf : findInv allInv s.inventoryId
    · rfl
    · rename_i inv
      by_cases hst : invStatus inv ≠ "sold" <;> simp [hst, hk.1]

theorem revMap_go_fst_lookup (allInv : List Inv) (l : List Sale)
    (acc : (String → Option ℚ) × ℚ) (s : Sale)
    (hnd : (l.map Sale.id).Nodup) (hs : s ∈ l) :
    (l.foldl (revMapStep allInv) acc).1 s.id
      = (saleScopeRev allInv s).or (acc.1 s.id) := by
  induction l generalizing acc with
  | nil => cases hs
  | cons h t ih =>
    simp only [List.map_cons, List.nodup_cons] at hnd
    rcases List.mem_cons.mp hs with rfl | hmem
    · simp only [List.foldl_cons]
      have hnot : s.id ∉ t.map Sale.id := hnd.1
      rw [revMap_go_fst_notmem allInv t _ _ hnot, revMapStep, saleScopeRev]
      cases hf : findInv allInv s.inventoryId
      · simp [Option.or]
      · rename_i inv
        by_cases hst : invStatus inv ≠ "sold" <;> simp [hst, Option.or]
    · simp only [List.foldl_cons]
      rw [ih _ hnd.2 hmem]
      have hne : s.id ≠ h.id := by
        intro hid
        exact hnd.1 (hid ▸ List.mem_map_of_mem Sale.id hmem)
      congr 1
      rw [revMapStep]
      cases hf : findInv allInv h.inventoryId
      · rfl
      · rename_i inv
        by_cases hst : invStatus inv ≠ "sold" <;> simp [hst, hne]

theorem revBySaleId_lookup (allInv : List Inv) (l : List Sale) (s : Sale)
    (hnd : (l.map Sale.id).Nodup) (hs : s ∈ l) :
    (sumExpensesByType allInv es l).revBySaleId s.id = saleScopeRev allInv s := by
  show (revMapA allInv l).1 s.id = saleScopeRev allInv s
  rw [revMapA, revMap_go_fst_lookup allInv l _ s hnd hs]
  cases saleScopeRev allInv s <;> simp [Option.or]

/-! ## The variant-B month allocator -/

theorem expenseBucket_cases (cat : String) (b : String)
    (h : expenseBucket cat = some b) :
    b = "material" ∨ b = "shipping" ∨ b = "other" := by
  rw [expenseBucket] at h
  cases hm : EXPENSE_CATEGORY_MAP cat with
  | some b' =>
    rw [hm] at h
    rw [EXPENSE_CATEGORY_MAP] at hm
    split_ifs at hm <;> {
      cases h
      cases hm
      simp }
  | none =>
    rw [hm] at h
    by_cases hp : objectProtoProps.contains cat
    · rw [if_pos hp] at h; cases h
    · rw [if_neg hp] at h
      injection h with h'
      exact Or.inr (Or.inr h'.symm)

theorem addToBucket_total (b : MBuckets) (bucket : Option String) (amt : ℚ)
    (hb : b.total = b.material + b.shipping + b.other)
    (hbk : bucket ≠ none) (hbk3 : ∀ x, bucket = some x →
      x = "material" ∨ x = "shipping" ∨ x = "other") :
    (addToBucket b bucket amt).total
      = (addToBucket b bucket amt).material + (addToBucket b bucket amt).shipping
        + (addToBucket b bucket amt).other := by
  cases bucket with
  | none => exact absurd rfl hbk
  | some x =>
    rcases hbk3 x rfl with rfl | rfl | rfl <;> simp [addToBucket, hb] <;> ring

theorem expBuckets_go_total (expenses : List Expense)
    (hben : ∀ e ∈ expenses, expenseBucket (jsTrimS e.category) ≠ none)
    (m : String → Option MBuckets)
    (hm : ∀ k b, m k = some b → b.total = b.material + b.shipping + b.other) :
    ∀ k b,
      (expenses.foldl
        (fun m e =>
          match ym e.date with
          | none => m
          | some key =>
            let amt := e.amount
            if amt ≤ 0 then m
            else
              let obj := (m key).getD ⟨0, 0, 0, 0⟩
              fun k => if k = key then
                  some (addToBucket obj (expenseBucket (jsTrimS e.category)) amt)
                else m k) m) k = some b →
      b.total = b.material + b.shipping + b.other := by
  induction expenses generalizing m with
  | nil => exact hm
  | cons e rest ih =>
    intro k b
    simp only [List.foldl_cons]
    refine ih (fun x hx => hben x (List.mem_cons_of_mem e hx)) _ ?_ k b
    intro k' b'
    cases hy : ym e.date with
    | none => exact hm k' b'
    | some key =>
      simp only
      by_cases hamt : e.amount ≤ 0
      · simp only [if_pos hamt]; exact hm k' b'
      · simp only [if_neg hamt]
        by_cases hk : k' = key
        · subst hk
          simp only [if_pos rfl]
          intro hsome
          cases hsome
          apply addToBucket_total
          · cases hobj : m k' with
            | none => simp
            | some b0 => simpa using hm k' b0 hobj
          · exact hben e (List.mem_cons_self e rest)
          · intro x hx; exact expenseBucket_cases _ _ hx
        · simp only [if_neg hk]; exact hm k' b'

/-- Under benign categories, each month's bucket record satisfies
`total = material + shipping + other`. -/
theorem expenseBucketsByMonth_total (expenses : List Expense)
    (hben : ∀ e ∈ expenses, expenseBucket (jsTrimS e.category) ≠ none)
    (k : String) (b : MBuckets) (h : expenseBucketsByMonth expenses k = some b) :
    b.total = b.material + b.shipping + b.other :=
  expBuckets_go_total expenses hben _ (by intro k b h; cases h) k b h

theorem soldRevByMonth_nonneg (flips : List Flip) (k : String) :
    0 ≤ soldRevByMonth flips k := by
  rw [soldRevByMonth_eq]
  apply List.sum_nonneg
  intro x hx
  rcases List.mem_map.mp hx with ⟨f, hf, rfl⟩
  have hsold : isSold f = true := by
    have := (List.mem_filter.mp hf).2
    exact (Bool.and_eq_true _ _).mp this |>.1
  have : 0 < f.soldPrice := by
    have := (Bool.and_eq_true _ _).mp hsold |>.2
    exact of_decide_eq_true this
  exact le_of_lt this

theorem soldCountByMonth_nonneg (flips : List Flip) (k : String) :
    0 ≤ soldCountByMonth flips k := by
  rw [soldCountByMonth_eq]
  positivity

/-- The variant-B allocator computes exactly the spec's allocation: scope
bucket totals scaled by `specAllocationWeight` (the proportional weight, with
the documented `1/count` equal-split fallback and the zero-count guard). -/
theorem allocatedExpenseForFlip_eq_spec (flips : List Flip)
    (expenses : List Expense) (flip : Flip) (k : String)
    (hs : isSold flip = true) (hy : ym flip.soldDate = some k) :
    allocatedExpenseForFlip flips expenses flip
      = scaleBuckets ((expenseBucketsByMonth expenses k).getD ⟨0, 0, 0, 0⟩)
          (specAllocationWeight (soldRevByMonth flips k)
            (soldCountByMonth flips k) flip.soldPrice) := by
  rw [allocatedExpenseForFlip]
  simp only [hs, hy, Bool.not_true, Bool.false_eq_true, if_false]
  cases hexp : expenseBucketsByMonth expenses k with
  | none => simp [scaleBuckets]
  | some monthExp =>
    simp only [Option.getD_some]
    have hrev := soldRevByMonth_nonneg flips k
    have hcnt := soldCountByMonth_nonneg flips k
    rw [scaleBuckets, specAllocationWeight]
    by_cases hpos : soldRevByMonth flips k > 0
    · have hne : ¬(soldRevByMonth flips k = 0) := by positivity
      simp [hpos, hne]
    · have hzero : soldRevByMonth flips k = 0 := le_antisymm (not_lt.mp hpos) hrev
      by_cases hcpos : soldCountByMonth flips k > 0
      · have hcne : ¬(soldCountByMonth flips k = 0) := by positivity
        simp [hpos, hzero, hcpos, hcne]
      · have hczero : soldCountByMonth flips k = 0 :=
          le_antisymm (not_lt.mp hcpos) hcnt
        simp [hpos, hzero, hcpos, hczero]

/-- A flip that is not sold gets no allocation. -/
theorem allocatedExpenseForFlip_not_sold (flips : List Flip)
    (expenses : List Expense) (flip : Flip) (hs : isSold flip = false) :
    allocatedExpenseForFlip flips expenses flip = ⟨0, 0, 0, 0⟩ := by
  rw [allocatedExpenseForFlip]
  simp [hs]

/-! ## `findInv` facts and the sell-through counting argument -/

theorem findInv_some_id {allInv : List Inv} {iid : String} {inv : Inv}
    (h : findInv allInv iid = some inv) : inv.id = iid := by
  have := List.find?_some h
  simpa using this

theorem findInv_some_mem {allInv : List Inv} {iid : String} {inv : Inv}
    (h : findInv allInv iid = some inv) : inv ∈ allInv :=
  List.mem_of_find?_eq_some h

theorem findInv_none {allInv : List Inv} {iid : String}
    (h : findInv allInv iid = none) {inv : Inv} (hm : inv ∈ allInv) :
    inv.id ≠ iid := by
  have := List.find?_eq_none.mp h inv hm
  simpa using this

/-- The inventory ids carried by the chart rows are the inventory ids of
exactly those sales whose item resolves. -/
theorem chartRows_ids (allInv : List Inv) (sales : List Sale) :
    (chartRows allInv sales).map (fun r => r.1.id)
      = (sales.filter (fun s => (findInv allInv s.inventoryId).isSome)).map
          Sale.inventoryId := by
  induction sales with
  | nil => rfl
  | cons s t ih =>
    simp only [chartRows, List.filterMap_cons, List.filter_cons] at *
    cases hf : findInv allInv s.inventoryId with
    | none => simpa [hf] using ih
    | some inv =>
      simp only [hf, Option.map_some', Option.isSome_some, if_pos, List.map_cons]
      exact congrArg₂ List.cons (findInv_some_id hf) ih

/-- The number of chart rows in a given condition bucket never exceeds the
number of non-exchanged inventory items in that bucket, provided ids are
unique and every charted sale references a sold inventory item. -/
theorem soldCond_countP_le (allInv : List Inv) (sales : List Sale) (k : String)
    (hInv : (allInv.map Inv.id).Nodup)
    (hSal : (sales.map Sale.inventoryId).Nodup)
    (hscope : ∀ s ∈ sales, s.inventoryId ∈ soldInvIds allInv) :
    (chartRows allInv sales).countP (fun r => normalizeCondition r.1.condition == k)
      ≤ allInv.countP (fun i =>
          !(invStatus i == "exchanged") && (normalizeCondition i.condition == k)) := by
  set q : Inv × Sale → Bool := fun r => normalizeCondition r.1.condition == k with hq
  set p : Inv → Bool := fun i =>
    !(invStatus i == "exchanged") && (normalizeCondition i.condition == k) with hp
  set A : List String :=
    ((chartRows allInv sales).filter q).map (fun r => r.1.id) with hA
  set B : List String := (allInv.filter p).map Inv.id with hB
  have hlenA : A.length = (chartRows allInv sales).countP q := by
    rw [hA, List.length_map, List.countP_eq_length_filter]
  have hlenB : B.length = allInv.countP p := by
    rw [hB, List.length_map, List.countP_eq_length_filter]
  have hAnd : A.Nodup := by
    have h1 : A.Sublist ((chartRows allInv sales).map (fun r => r.1.id)) :=
      (List.filter_sublist _).map _
    have h2 : ((chartRows allInv sales).map (fun r => r.1.id)).Sublist
        (sales.map Sale.inventoryId) := by
      rw [chartRows_ids]
      exact (List.filter_sublist _).map _
    exact (h1.trans h2).nodup hSal
  have hsub : A ⊆ B := by
    intro a ha
    rcases List.mem_map.mp ha with ⟨r, hr, rfl⟩
    rcases List.mem_filter.mp hr with ⟨hrmem, hrq⟩
    rcases List.mem_filterMap.mp hrmem with ⟨s, hsmem, hmapeq⟩
    cases hf : findInv allInv s.inventoryId with
    | none => rw [hf] at hmapeq; cases hmapeq
    | some inv =>
      rw [hf] at hmapeq
      cases hmapeq
      rcases List.mem_map.mp (hscope s hsmem) with ⟨inv', hinv', hid⟩
      rcases List.mem_filter.mp hinv' with ⟨hinv'mem, hinv'sold⟩
      have hinvmem : inv ∈ allInv := findInv_some_mem hf
      have hideq : inv.id = inv'.id := by
        rw [findInv_some_id hf, hid]
      have heq : inv = inv' :=
        List.inj_on_of_nodup_map hInv hinvmem hinv'mem hideq
      apply List.mem_map.mpr
      refine ⟨inv, List.mem_filter.mpr ⟨hinvmem, ?_⟩, rfl⟩
      have hsold : invStatus inv = "sold" := by
        rw [heq]; simpa using hinv'sold
      have hcond : normalizeCondition inv.condition = k := by
        rw [hq] at hrq
        simpa using hrq
      rw [hp]
      simp [hsold, hcond]
  calc (chartRows allInv sales).countP q = A.length := hlenA.symm
    _ ≤ B.length := (List.subperm_of_subset hAnd hsub).length_le
    _ = allInv.countP p := hlenB

/-! ## Skip lemmas for a dangling sale (missing inventory reference) -/

theorem statsScopeSales_skip (allInv : List Inv) (s : Sale) (l₁ l₂ : List Sale)
    (hf : findInv allInv s.inventoryId = none) :
    statsScopeSales allInv (l₁ ++ s :: l₂) = statsScopeSales allInv (l₁ ++ l₂) := by
  have hnm : s.inventoryId ∉ soldInvIds allInv := by
    intro hmem
    rcases List.mem_map.mp hmem with ⟨inv, hinv, hid⟩
    exact findInv_none hf (List.mem_filter.mp hinv).1 hid
  have hc : ((soldInvIds allInv).contains s.inventoryId) = false := by
    simpa using hnm
  simp only [statsScopeSales, List.filter_append, List.filter_cons, hc]
  simp

theorem chartRows_skip (allInv : List Inv) (s : Sale) (l₁ l₂ : List Sale)
    (hf : findInv allInv s.inventoryId = none) :
    chartRows allInv (l₁ ++ s :: l₂) = chartRows allInv (l₁ ++ l₂) := by
  simp only [chartRows, List.filterMap_append, List.filterMap_cons, hf,
    Option.map_none']

theorem revMapStep_skip (allInv : List Inv) (acc : (String → Option ℚ) × ℚ)
    (s : Sale) (hf : findInv allInv s.inventoryId = none) :
    revMapStep allInv acc s = acc := by
  simp [revMapStep, hf]

theorem sumExpensesByType_skip (allInv : List Inv) (expenses : List Expense)
    (s : Sale) (l₁ l₂ : List Sale) (hf : findInv allInv s.inventoryId = none) :
    sumExpensesByType allInv expenses (l₁ ++ s :: l₂)
      = sumExpensesByType allInv expenses (l₁ ++ l₂) := by
  have : revMapA allInv (l₁ ++ s :: l₂) = revMapA allInv (l₁ ++ l₂) := by
    simp only [revMapA, List.foldl_append, List.foldl_cons]
    rw [revMapStep_skip allInv _ s hf]
  simp only [sumExpensesByType, this]

theorem statsAccStep_skip (pd : String → Option ℚ) (allInv : List Inv)
    (alloc : AllocA) (acc : StatsAcc) (s : Sale)
    (hf : findInv allInv s.inventoryId = none) :
    statsAccStep pd allInv alloc acc s = acc := by
  simp [statsAccStep, hf]

theorem renderStats_skip (pd : String → Option ℚ) (startStr : Option String)
    (bsel : String) (allInv : List Inv) (expenses : List Expense) (s : Sale)
    (l₁ l₂ : List Sale) (hf : findInv allInv s.inventoryId = none) :
    renderStats pd startStr bsel allInv (l₁ ++ s :: l₂) expenses
      = renderStats pd startStr bsel allInv (l₁ ++ l₂) expenses := by
  unfold renderStats
  rw [statsScopeSales_skip allInv s l₁ l₂ hf]

/-! ## Days-to-sell helpers -/

theorem jsRound_nonneg (q : ℚ) (h : 0 ≤ q) : 0 ≤ jsRound q := by
  rw [jsRound]
  apply Int.floor_nonneg.mpr
  linarith

theorem daysBetween_nonneg (pd : String → Option ℚ) (a b : String) (d : ℤ)
    (h : daysBetween pd a b = some d) : 0 ≤ d := by
  rw [daysBetween] at h
  by_cases he : a = "" || b = ""
  · rw [if_pos he] at h; cases h
  · rw [if_neg he] at h
    cases hpa : pd a <;> rw [hpa] at h
    · cases h
    · cases hpb : pd b <;> rw [hpb] at h
      · cases h
      · injection h with h'
        rw [← h']
        exact le_max_left 0 _

theorem statsAcc_totalDays_nonneg (pd : String → Option ℚ) (allInv : List Inv)
    (alloc : AllocA) (l : List Sale) (acc : StatsAcc)
    (h : 0 ≤ acc.totalDays) :
    0 ≤ (l.foldl (statsAccStep pd allInv alloc) acc).totalDays := by
  induction l generalizing acc with
  | nil => exact h
  | cons s t ih =>
    simp only [List.foldl_cons]
    apply ih
    rw [statsAccStep]
    cases hf : findInv allInv s.inventoryId with
    | none => exact h
    | some inv =>
      simp only
      cases hd : daysBetween pd inv.purchaseDate s.soldDate with
      | none => exact h
      | some d =>
        simp only
        have := daysBetween_nonneg pd inv.purchaseDate s.soldDate d hd
        omega

/-! ## Claim theorems -/

/-- C1 (counterexample).  The claim says that when a scope's total revenue
is zero the allocation weight falls back to an equal split of `1/count`.  In
the filtered-scope allocator (`sumExpensesByType` / `computeSaleNet`) this is
false: with one sold sale of item revenue `0` in scope and a `$10` Shipping
expense, the spec weight is `1/1 = 1` (the whole `$10` should be allocated),
but the code divides by the sentinel `totalRev || 0.00001` and allocates
`$0`. -/
theorem C1_counterexample :
    (computeSaleNet ⟨"i1", "sold", "new_sealed", "", "2024-01-05", 20, 2⟩
        ⟨"s1", "i1", "2024-02-01", 0, 0, 0, 5, "X", ""⟩
        (sumExpensesByType [⟨"i1", "sold", "new_sealed", "", "2024-01-05", 20, 2⟩]
          [⟨"Shipping", 10, "2024-02-10"⟩]
          [⟨"s1", "i1", "2024-02-01", 0, 0, 0, 5, "X", ""⟩])).allocShipping = 0
    ∧ (sumExpensesByType [⟨"i1", "sold", "new_sealed", "", "2024-01-05", 20, 2⟩]
        [⟨"Shipping", 10, "2024-02-10"⟩]
        [⟨"s1", "i1", "2024-02-01", 0, 0, 0, 5, "X", ""⟩]).totals.shipping = 10
    ∧ scopeRevTotal [⟨"i1", "sold", "new_sealed", "", "2024-01-05", 20, 2⟩]
        [⟨"s1", "i1", "2024-02-01", 0, 0, 0, 5, "X", ""⟩] = 0
    ∧ (10 : ℚ) * specAllocationWeight 0 1 0 ≠ 0 := by
  refine ⟨?_, ?_, ?_, ?_⟩
  · simp +decide only [computeSaleNet, saleWeight, sumExpensesByType, revMapA,
      revMapStep, expenseTotalsA, findInv, invStatus, saleItemRevenue,
      saleShippingRevenue, saleDirectCosts, invTotalCost, jsTrimS, jsTrimL,
      jsIsWS, List.foldl_cons, List.foldl_nil, List.find?, Option.getD_some,
      Option.getD_none]
    simp +decide
  · simp +decide only [sumExpensesByType, expenseTotalsA, jsTrimS, jsTrimL,
      jsIsWS, List.foldl_cons, List.foldl_nil]
    norm_num
  · simp +decide only [scopeRevTotal, revMapA, revMapStep, findInv, invStatus,
      saleItemRevenue, List.foldl_cons, List.foldl_nil, List.find?]
    simp +decide
  · rw [specAllocationWeight]
    norm_num

/-- C1 (amended).  (a) When the raw scope revenue total is non-zero, the
filtered-scope allocator's weight is exactly the claimed
`revenue / total`.  (b) When the raw total is zero, that allocator instead
divides by the sentinel `0.00001`, i.e. the weight is `revenue × 100000`
(0 for a zero-revenue sale) — not an equal split.  (c) The month-scoped
allocator (`allocatedExpenseForFlip`) implements exactly the claimed weight,
equal-split fallback included, scaling each month bucket by
`specAllocationWeight`.  (d) A non-sold flip gets a zero allocation (an
empty scope allocates nothing). -/
theorem C1_amended :
    (∀ (allInv : List Inv) (expenses : List Expense) (scope : List Sale)
      (s : Sale), (scope.map Sale.id).Nodup → s ∈ scope →
      scopeRevTotal allInv scope ≠ 0 →
      saleWeight (sumExpensesByType allInv expenses scope) s
        = ((saleScopeRev allInv s).getD 0) / scopeRevTotal allInv scope)
    ∧ (∀ (allInv : List Inv) (expenses : List Expense) (scope : List Sale)
      (s : Sale), (scope.map Sale.id).Nodup → s ∈ scope →
      scopeRevTotal allInv scope = 0 →
      saleWeight (sumExpensesByType allInv expenses scope) s
        = ((saleScopeRev allInv s).getD 0) * 100000)
    ∧ (∀ (flips : List Flip) (expenses : List Expense) (flip : Flip)
      (k : String), isSold flip = true → ym flip.soldDate = some k →
      allocatedExpenseForFlip flips expenses flip
        = scaleBuckets ((expenseBucketsByMonth expenses k).getD ⟨0, 0, 0, 0⟩)
            (specAllocationWeight (soldRevByMonth flips k)
              (soldCountByMonth flips k) flip.soldPrice))
    ∧ (∀ (flips : List Flip) (expenses : List Expense) (flip : Flip),
      isSold flip = false →
      allocatedExpenseForFlip flips expenses flip = ⟨0, 0, 0, 0⟩) := by
  refine ⟨?_, ?_, ?_, ?_⟩
  · intro allInv expenses scope s hnd hs hne
    rw [saleWeight, revBySaleId_lookup allInv scope s hnd hs]
    have hne' : (revMapA allInv scope).2 ≠ 0 := by
      rw [scopeRevTotal] at hne; exact hne
    have : (sumExpensesByType allInv expenses scope).totalRev
        = scopeRevTotal allInv scope := by
      show (if (revMapA allInv scope).2 = 0 then (1 : ℚ) / 100000
        else (revMapA allInv scope).2) = _
      rw [if_neg hne']; rfl
    rw [this]
  · intro allInv expenses scope s hnd hs hzero
    rw [saleWeight, revBySaleId_lookup allInv scope s hnd hs]
    have hzero' : (revMapA allInv scope).2 = 0 := by
      rw [scopeRevTotal] at hzero; exact hzero
    have : (sumExpensesByType allInv expenses scope).totalRev = 1 / 100000 := by
      show (if (revMapA allInv scope).2 = 0 then (1 : ℚ) / 100000
        else (revMapA allInv scope).2) = _
      rw [if_pos hzero']
    rw [this, div_eq_mul_inv, one_div, inv_inv]
  · intro flips expenses flip k hs hy
    exact allocatedExpenseForFlip_eq_spec flips expenses flip k hs hy
  · intro flips expenses flip hs
    exact allocatedExpenseForFlip_not_sold flips expenses flip hs

theorem C1_amended_witness :
    isSold ⟨"f1", "2024-02-01", "2024-01-05", "new_sealed", "", 20, 2, 50, 5, "X"⟩ = true
    ∧ ym "2024-02-01" = some "2024-02"
    ∧ allocatedExpenseForFlip
        [⟨"f1", "2024-02-01", "2024-01-05", "new_sealed", "", 20, 2, 50, 5, "X"⟩]
        [⟨"Shipping", 10, "2024-02-10"⟩]
        ⟨"f1", "2024-02-01", "2024-01-05", "new_sealed", "", 20, 2, 50, 5, "X"⟩
      = scaleBuckets
          ((expenseBucketsByMonth [⟨"Shipping", 10, "2024-02-10"⟩] "2024-02").getD
            ⟨0, 0, 0, 0⟩)
          (specAllocationWeight
            (soldRevByMonth
              [⟨"f1", "2024-02-01", "2024-01-05", "new_sealed", "", 20, 2, 50, 5, "X"⟩]
              "2024-02")
            (soldCountByMonth
              [⟨"f1", "2024-02-01", "2024-01-05", "new_sealed", "", 20, 2, 50, 5, "X"⟩]
              "2024-02")
            50) :=
  ⟨by decide, by decide,
    C1_amended.2.2.1
      [⟨"f1", "2024-02-01", "2024-01-05", "new_sealed", "", 20, 2, 50, 5, "X"⟩]
      [⟨"Shipping", 10, "2024-02-10"⟩]
      ⟨"f1", "2024-02-01", "2024-01-05", "new_sealed", "", 20, 2, 50, 5, "X"⟩
      "2024-02" (by decide) (by decide)⟩

/-- The month allocator's `total` field decomposes into the three buckets,
provided no expense category names an `Object.prototype` member. -/
theorem allocB_total_decomp (flips : List Flip) (expenses : List Expense)
    (flip : Flip)
    (hben : ∀ e ∈ expenses, expenseBucket (jsTrimS e.category) ≠ none) :
    (allocatedExpenseForFlip flips expenses flip).total
      = (allocatedExpenseForFlip flips expenses flip).material
        + (allocatedExpenseForFlip flips expenses flip).shipping
        + (allocatedExpenseForFlip flips expenses flip).other := by
  rw [allocatedExpenseForFlip]
  cases hs : isSold flip with
  | false => norm_num
  | true =>
    simp only [Bool.not_true, Bool.false_eq_true, if_false]
    cases hy : ym flip.soldDate with
    | none => norm_num
    | some k =>
      cases hexp : expenseBucketsByMonth expenses k with
      | none => simp only [hexp]; norm_num
      | some b =>
        simp only [hexp]
        have := expenseBucketsByMonth_total expenses hben k b hexp
        rw [this]; ring

/-- C2.  In both allocators, when the scope's total revenue is strictly
positive the allocation weights over the scope's sales sum to exactly 1, and
therefore each bucket's allocated amounts across the scope sum to the
bucket's scope total.  For the filtered-scope allocator (variant A) the scope
is the filtered sale list (`invOf` is the caller's arbitrary pairing of sales
with inventory items — the allocated fields do not depend on it); for the
month allocator (variant B) the scope is the sold flips of month `k` and the
bucket totals are the month's bucket record. -/
theorem C2_allocation_partition :
    (∀ (allInv : List Inv) (expenses : List Expense) (scope : List Sale)
      (invOf : Sale → Inv), (scope.map Sale.id).Nodup →
      0 < scopeRevTotal allInv scope →
      (scope.map (fun s =>
        saleWeight (sumExpensesByType allInv expenses scope) s)).sum = 1
      ∧ (scope.map (fun s => (computeSaleNet (invOf s) s
          (sumExpensesByType allInv expenses scope)).allocMaterial)).sum
        = (sumExpensesByType allInv expenses scope).totals.material
      ∧ (scope.map (fun s => (computeSaleNet (invOf s) s
          (sumExpensesByType allInv expenses scope)).allocShipping)).sum
        = (sumExpensesByType allInv expenses scope).totals.shipping
      ∧ (scope.map (fun s => (computeSaleNet (invOf s) s
          (sumExpensesByType allInv expenses scope)).allocOther)).sum
        = (sumExpensesByType allInv expenses scope).totals.other)
    ∧ (∀ (flips : List Flip) (expenses : List Expense) (k : String),
      0 < soldRevByMonth flips k →
      ((flips.filter (fun f => isSold f && (ym f.soldDate == some k))).map
        (fun f => (allocatedExpenseForFlip flips expenses f).material)).sum
        = ((expenseBucketsByMonth expenses k).getD ⟨0, 0, 0, 0⟩).material
      ∧ ((flips.filter (fun f => isSold f && (ym f.soldDate == some k))).map
        (fun f => (allocatedExpenseForFlip flips expenses f).shipping)).sum
        = ((expenseBucketsByMonth expenses k).getD ⟨0, 0, 0, 0⟩).shipping
      ∧ ((flips.filter (fun f => isSold f && (ym f.soldDate == some k))).map
        (fun f => (allocatedExpenseForFlip flips expenses f).other)).sum
        = ((expenseBucketsByMonth expenses k).getD ⟨0, 0, 0, 0⟩).other) := by
  constructor
  · intro allInv expenses scope invOf hnd hpos
    have hne : (revMapA allInv scope).2 ≠ 0 := by
      rw [scopeRevTotal] at hpos; exact ne_of_gt hpos
    have hcong : ∀ s ∈ scope,
        saleWeight (sumExpensesByType allInv expenses scope) s
          = (saleScopeRev allInv s).getD 0 * (scopeRevTotal allInv scope)⁻¹ := by
      intro s hs
      rw [saleWeight, revBySaleId_lookup allInv scope s hnd hs]
      show _ / (if (revMapA allInv scope).2 = 0 then (1 : ℚ) / 100000
        else (revMapA allInv scope).2) = _
      rw [if_neg hne, div_eq_mul_inv]; rfl
    have hw : (scope.map (fun s =>
        saleWeight (sumExpensesByType allInv expenses scope) s)).sum = 1 := by
      rw [List.map_congr_left hcong, sum_map_mul_right, ← scopeRevTotal_eq,
        mul_inv_cancel₀ (ne_of_gt hpos)]
    refine ⟨hw, ?_, ?_, ?_⟩
    · have hpt : ∀ s ∈ scope, (computeSaleNet (invOf s) s
          (sumExpensesByType allInv expenses scope)).allocMaterial
          = (sumExpensesByType allInv expenses scope).totals.material
            * saleWeight (sumExpensesByType allInv expenses scope) s :=
        fun s _ => rfl
      rw [List.map_congr_left hpt, sum_map_mul_left, hw, mul_one]
    · have hpt : ∀ s ∈ scope, (computeSaleNet (invOf s) s
          (sumExpensesByType allInv expenses scope)).allocShipping
          = (sumExpensesByType allInv expenses scope).totals.shipping
            * saleWeight (sumExpensesByType allInv expenses scope) s :=
        fun s _ => rfl
      rw [List.map_congr_left hpt, sum_map_mul_left, hw, mul_one]
    · have hpt : ∀ s ∈ scope, (computeSaleNet (invOf s) s
          (sumExpensesByType allInv expenses scope)).allocOther
          = (sumExpensesByType allInv expenses scope).totals.other
            * saleWeight (sumExpensesByType allInv expenses scope) s :=
        fun s _ => rfl
      rw [List.map_congr_left hpt, sum_map_mul_left, hw, mul_one]
  · intro flips expenses k hpos
    have hne : soldRevByMonth flips k ≠ 0 := ne_of_gt hpos
    have hmem : ∀ f ∈ flips.filter
        (fun f => isSold f && (ym f.soldDate == some k)),
        isSold f = true ∧ ym f.soldDate = some k := by
      intro f hf
      have := (List.mem_filter.mp hf).2
      rcases (Bool.and_eq_true _ _).mp this with ⟨h1, h2⟩
      exact ⟨h1, by simpa using h2⟩
    have hsum : ((flips.filter
        (fun f => isSold f && (ym f.soldDate == some k))).map
          Flip.soldPrice).sum = soldRevByMonth flips k :=
      (soldRevByMonth_eq flips k).symm
    refine ⟨?_, ?_, ?_⟩
    · have hpt : ∀ f ∈ flips.filter
          (fun f => isSold f && (ym f.soldDate == some k)),
          (allocatedExpenseForFlip flips expenses f).material
            = ((expenseBucketsByMonth expenses k).getD ⟨0, 0, 0, 0⟩).material
              * (f.soldPrice * (soldRevByMonth flips k)⁻¹) := by
        intro f hf
        rw [allocatedExpenseForFlip_eq_spec flips expenses f k (hmem f hf).1
          (hmem f hf).2, specAllocationWeight, if_neg hne]
        rw [scaleBuckets, div_eq_mul_inv]
      rw [List.map_congr_left hpt, sum_map_mul_left, sum_map_mul_right, hsum,
        mul_inv_cancel₀ hne, mul_one]
    · have hpt : ∀ f ∈ flips.filter
          (fun f => isSold f && (ym f.soldDate == some k)),
          (allocatedExpenseForFlip flips expenses f).shipping
            = ((expenseBucketsByMonth expenses k).getD ⟨0, 0, 0, 0⟩).shipping
              * (f.soldPrice * (soldRevByMonth flips k)⁻¹) := by
        intro f hf
        rw [allocatedExpenseForFlip_eq_spec flips expenses f k (hmem f hf).1
          (hmem f hf).2, specAllocationWeight, if_neg hne]
        rw [scaleBuckets, div_eq_mul_inv]
      rw [List.map_congr_left hpt, sum_map_mul_left, sum_map_mul_right, hsum,
        mul_inv_cancel₀ hne, mul_one]
    · have hpt : ∀ f ∈ flips.filter
          (fun f => isSold f && (ym f.soldDate == some k)),
          (allocatedExpenseForFlip flips expenses f).other
            = ((expenseBucketsByMonth expenses k).getD ⟨0, 0, 0, 0⟩).other
              * (f.soldPrice * (soldRevByMonth flips k)⁻¹) := by
        intro f hf
        rw [allocatedExpenseForFlip_eq_spec flips expenses f k (hmem f hf).1
          (hmem f hf).2, specAllocationWeight, if_neg hne]
        rw [scaleBuckets, div_eq_mul_inv]
      rw [List.map_congr_left hpt, sum_map_mul_left, sum_map_mul_right, hsum,
        mul_inv_cancel₀ hne, mul_one]

theorem C2_allocation_partition_witness :
    (([⟨"s1", "i1", "2024-02-01", 50, 0, 0, 5, "X", ""⟩] : List Sale).map
      Sale.id).Nodup
    ∧ 0 < scopeRevTotal [⟨"i1", "sold", "new_sealed", "", "2024-01-05", 20, 2⟩]
        [⟨"s1", "i1", "2024-02-01", 50, 0, 0, 5, "X", ""⟩]
    ∧ (([⟨"s1", "i1", "2024-02-01", 50, 0, 0, 5, "X", ""⟩] : List Sale).map
        (fun s => saleWeight (sumExpensesByType
          [⟨"i1", "sold", "new_sealed", "", "2024-01-05", 20, 2⟩]
          [⟨"Shipping", 10, "2024-02-10"⟩]
          [⟨"s1", "i1", "2024-02-01", 50, 0, 0, 5, "X", ""⟩]) s)).sum = 1 := by
  have hpos : 0 < scopeRevTotal
      [⟨"i1", "sold", "new_sealed", "", "2024-01-05", 20, 2⟩]
      [⟨"s1", "i1", "2024-02-01", 50, 0, 0, 5, "X", ""⟩] := by
    simp +decide only [scopeRevTotal, revMapA, revMapStep, findInv, invStatus,
      saleItemRevenue, List.foldl_cons, List.foldl_nil, List.find?]
    simp +decide
  exact ⟨by decide, hpos,
    (C2_allocation_partition.1
      [⟨"i1", "sold", "new_sealed", "", "2024-01-05", 20, 2⟩]
      [⟨"Shipping", 10, "2024-02-10"⟩]
      [⟨"s1", "i1", "2024-02-01", 50, 0, 0, 5, "X", ""⟩]
      (fun _ => ⟨"i1", "sold", "new_sealed", "", "2024-01-05", 20, 2⟩)
      (by decide) hpos).1⟩

/-- C3 (counterexample).  The claim says the allocated cost subtracted from
net profit is exactly the sum of the three allocator buckets.  In variant B
this is false on a reachable input: expense categories are free text, and a
category naming an `Object.prototype` member — here `"toString"` — makes the
bucket read `EXPENSE_CATEGORY_MAP[cat] || "other"` yield the inherited
truthy function, so `obj[bucket] += amt` writes a junk key while
`obj.total += amt` still runs.  With one sold flip (revenue 50, direct cost
27) and a `$10` expense of category `"toString"` in its sold month, `calcNet`
subtracts `alloc.total = 10` and yields `profitNet = 13`, while the claim's
formula `revenue − directCost − (material + shipping + other)` gives `23`:
the three buckets are all 0. -/
theorem C3_counterexample :
    (calcNet ⟨"f1", "2024-02-01", "2024-01-05", "new_sealed", "", 20, 2, 50, 5, "X"⟩
        [⟨"f1", "2024-02-01", "2024-01-05", "new_sealed", "", 20, 2, 50, 5, "X"⟩]
        [⟨"toString", 10, "2024-02-10"⟩]).profitNet = 13
    ∧ (calcNet ⟨"f1", "2024-02-01", "2024-01-05", "new_sealed", "", 20, 2, 50, 5, "X"⟩
        [⟨"f1", "2024-02-01", "2024-01-05", "new_sealed", "", 20, 2, 50, 5, "X"⟩]
        [⟨"toString", 10, "2024-02-10"⟩]).alloc.total = 10
    ∧ (calcNet ⟨"f1", "2024-02-01", "2024-01-05", "new_sealed", "", 20, 2, 50, 5, "X"⟩
        [⟨"f1", "2024-02-01", "2024-01-05", "new_sealed", "", 20, 2, 50, 5, "X"⟩]
        [⟨"toString", 10, "2024-02-10"⟩]).alloc.material = 0
    ∧ (calcNet ⟨"f1", "2024-02-01", "2024-01-05", "new_sealed", "", 20, 2, 50, 5, "X"⟩
        [⟨"f1", "2024-02-01", "2024-01-05", "new_sealed", "", 20, 2, 50, 5, "X"⟩]
        [⟨"toString", 10, "2024-02-10"⟩]).alloc.shipping = 0
    ∧ (calcNet ⟨"f1", "2024-02-01", "2024-01-05", "new_sealed", "", 20, 2, 50, 5, "X"⟩
        [⟨"f1", "2024-02-01", "2024-01-05", "new_sealed", "", 20, 2, 50, 5, "X"⟩]
        [⟨"toString", 10, "2024-02-10"⟩]).alloc.other = 0
    ∧ (calcNet ⟨"f1", "2024-02-01", "2024-01-05", "new_sealed", "", 20, 2, 50, 5, "X"⟩
          [⟨"f1", "2024-02-01", "2024-01-05", "new_sealed", "", 20, 2, 50, 5, "X"⟩]
          [⟨"toString", 10, "2024-02-10"⟩]).base.revenue
        - (calcNet ⟨"f1", "2024-02-01", "2024-01-05", "new_sealed", "", 20, 2, 50, 5, "X"⟩
            [⟨"f1", "2024-02-01", "2024-01-05", "new_sealed", "", 20, 2, 50, 5, "X"⟩]
            [⟨"toString", 10, "2024-02-10"⟩]).base.directCost
        - ((calcNet ⟨"f1", "2024-02-01", "2024-01-05", "new_sealed", "", 20, 2, 50, 5, "X"⟩
              [⟨"f1", "2024-02-01", "2024-01-05", "new_sealed", "", 20, 2, 50, 5, "X"⟩]
              [⟨"toString", 10, "2024-02-10"⟩]).alloc.material
          + (calcNet ⟨"f1", "2024-02-01", "2024-01-05", "new_sealed", "", 20, 2, 50, 5, "X"⟩
              [⟨"f1", "2024-02-01", "2024-01-05", "new_sealed", "", 20, 2, 50, 5, "X"⟩]
              [⟨"toString", 10, "2024-02-10"⟩]).alloc.shipping
          + (calcNet ⟨"f1", "2024-02-01", "2024-01-05", "new_sealed", "", 20, 2, 50, 5, "X"⟩
              [⟨"f1", "2024-02-01", "2024-01-05", "new_sealed", "", 20, 2, 50, 5, "X"⟩]
              [⟨"toString", 10, "2024-02-10"⟩]).alloc.other) = 23
    ∧ (13 : ℚ) ≠ 23 := by
  refine ⟨?_, ?_, ?_, ?_, ?_, ?_, by norm_num⟩ <;>
  · simp +decide only [calcNet, calcFlip, isSold, allocatedExpenseForFlip,
      expenseBucketsByMonth, expenseBucket, EXPENSE_CATEGORY_MAP,
      objectProtoProps, addToBucket, soldRevByMonth, soldCountByMonth,
      tallyFold, ym, ymOK, jsTrimS, jsTrimL, jsIsWS, List.foldl_cons,
      List.foldl_nil, Option.getD_some, Option.getD_none, zero_add, add_zero]
    norm_num

/-- C3 (amended).  (Variant A) `computeSaleNet` yields exactly
`netProfit = revenue − directCost − (allocMaterial + allocShipping +
allocOther)`, with `revenue = itemPrice + shippingCharged` and
`directCost = purchaseCost + materialCost + shippingPaid + platformFees`;
there are no other terms.  (Variant B) `calcNet` yields
`profitNet = revenue − directCost − alloc.total`, and
`directCost = purchaseCost + materialCost + fees`; `alloc.total` equals the
sum of the three allocator buckets *provided* every expense category maps to
a real bucket, i.e. none is an `Object.prototype` member name — an amount
filed under such a category is subtracted via `alloc.total` but appears in
no bucket (the counterexample above). -/
theorem C3_netProfit_decomposition :
    (∀ (inv : Inv) (sale : Sale) (alloc : AllocA),
      (computeSaleNet inv sale alloc).netProfit
        = (computeSaleNet inv sale alloc).revenue
          - (computeSaleNet inv sale alloc).directCosts
          - ((computeSaleNet inv sale alloc).allocMaterial
            + (computeSaleNet inv sale alloc).allocShipping
            + (computeSaleNet inv sale alloc).allocOther)
      ∧ (computeSaleNet inv sale alloc).revenue
        = sale.itemPrice + sale.shippingCharged
      ∧ (computeSaleNet inv sale alloc).directCosts
        = inv.purchaseCost + inv.materialCost + sale.shippingPaid
          + sale.platformFees)
    ∧ (∀ (flip : Flip) (flips : List Flip) (expenses : List Expense),
      (∀ e ∈ expenses, expenseBucket (jsTrimS e.category) ≠ none) →
      (calcNet flip flips expenses).profitNet
        = (calcNet flip flips expenses).base.revenue
          - (calcNet flip flips expenses).base.directCost
          - (calcNet flip flips expenses).alloc.total
      ∧ (calcNet flip flips expenses).alloc.total
        = (calcNet flip flips expenses).alloc.material
          + (calcNet flip flips expenses).alloc.shipping
          + (calcNet flip flips expenses).alloc.other
      ∧ (calcNet flip flips expenses).base.directCost
        = flip.purchaseCost + flip.materialCost + flip.fees) := by
  constructor
  · intro inv sale alloc
    refine ⟨?_, rfl, rfl⟩
    simp only [computeSaleNet]
    ring
  · intro flip flips expenses hben
    exact ⟨rfl, allocB_total_decomp flips expenses flip hben, rfl⟩

theorem C3_netProfit_decomposition_witness :
    (∀ e ∈ ([⟨"Shipping", 10, "2024-02-10"⟩] : List Expense),
      expenseBucket (jsTrimS e.category) ≠ none)
    ∧ (calcNet ⟨"f1", "2024-02-01", "2024-01-05", "new_sealed", "", 20, 2, 50, 5, "X"⟩
        [⟨"f1", "2024-02-01", "2024-01-05", "new_sealed", "", 20, 2, 50, 5, "X"⟩]
        [⟨"Shipping", 10, "2024-02-10"⟩]).alloc.total
      = (calcNet ⟨"f1", "2024-02-01", "2024-01-05", "new_sealed", "", 20, 2, 50, 5, "X"⟩
          [⟨"f1", "2024-02-01", "2024-01-05", "new_sealed", "", 20, 2, 50, 5, "X"⟩]
          [⟨"Shipping", 10, "2024-02-10"⟩]).alloc.material
        + (calcNet ⟨"f1", "2024-02-01", "2024-01-05", "new_sealed", "", 20, 2, 50, 5, "X"⟩
            [⟨"f1", "2024-02-01", "2024-01-05", "new_sealed", "", 20, 2, 50, 5, "X"⟩]
            [⟨"Shipping", 10, "2024-02-10"⟩]).alloc.shipping
        + (calcNet ⟨"f1", "2024-02-01", "2024-01-05", "new_sealed", "", 20, 2, 50, 5, "X"⟩
            [⟨"f1", "2024-02-01", "2024-01-05", "new_sealed", "", 20, 2, 50, 5, "X"⟩]
            [⟨"Shipping", 10, "2024-02-10"⟩]).alloc.other :=
  ⟨by decide,
    (C3_netProfit_decomposition.2
      ⟨"f1", "2024-02-01", "2024-01-05", "new_sealed", "", 20, 2, 50, 5, "X"⟩
      [⟨"f1", "2024-02-01", "2024-01-05", "new_sealed", "", 20, 2, 50, 5, "X"⟩]
      [⟨"Shipping", 10, "2024-02-10"⟩] (by decide)).2.1⟩

/-- C4.  The sell-through rate is always in `[0, 100]` and is 0 (not
`NaN`) when the scope holds no items: (i)–(ii) for the scope-level KPI of
`renderStats` (`soldInv.length / Math.max(1, invScope.length) * 100`);
(iii)–(iv) for the per-condition chart rates
(`total ? sold / total * 100 : 0`), where the bound needs the data-model
invariants that ids are unique and each charted sale references a sold item
(the pipeline in `renderStats` guarantees the latter). -/
theorem C4_sellThrough_bounds :
    (∀ (pd : String → Option ℚ) (st : Option String) (bsel : String)
      (allInv : List Inv) (allSales : List Sale) (exp : List Expense),
      0 ≤ (renderStats pd st bsel allInv allSales exp).sellThrough
      ∧ (renderStats pd st bsel allInv allSales exp).sellThrough ≤ 100)
    ∧ (∀ (pd : String → Option ℚ) (st : Option String) (bsel : String)
      (allInv : List Inv) (allSales : List Sale) (exp : List Expense),
      getStatsBatchScopedInventory bsel allInv = [] →
      (renderStats pd st bsel allInv allSales exp).sellThrough = 0)
    ∧ (∀ (allInv : List Inv) (sales : List Sale) (k : String),
      (allInv.map Inv.id).Nodup → (sales.map Sale.inventoryId).Nodup →
      (∀ s ∈ sales, s.inventoryId ∈ soldInvIds allInv) →
      0 ≤ sellThroughEntry allInv (chartRows allInv sales) k
      ∧ sellThroughEntry allInv (chartRows allInv sales) k ≤ 100)
    ∧ (∀ (allInv : List Inv) (rows : List (Inv × Sale)) (k : String),
      invCountByCond allInv k = 0 → sellThroughEntry allInv rows k = 0) := by
  refine ⟨?_, ?_, ?_, ?_⟩
  · intro pd st bsel allInv allSales exp
    simp only [renderStats]
    constructor
    · positivity
    · have h1 : ((getStatsBatchScopedInventory bsel allInv).filter
          (fun i => invStatus i == "sold")).length
          ≤ (getStatsBatchScopedInventory bsel allInv).length :=
        List.length_filter_le _ _
      have h2 : (getStatsBatchScopedInventory bsel allInv).length
          ≤ max 1 (getStatsBatchScopedInventory bsel allInv).length :=
        le_max_right _ _
      have hb : (0 : ℚ)
          < ((max 1 (getStatsBatchScopedInventory bsel allInv).length : ℕ) : ℚ) := by
        have : (1 : ℕ) ≤ max 1 (getStatsBatchScopedInventory bsel allInv).length :=
          le_max_left _ _
        exact_mod_cast lt_of_lt_of_le Nat.zero_lt_one this
      have hd : (((getStatsBatchScopedInventory bsel allInv).filter
            (fun i => invStatus i == "sold")).length : ℚ)
          / ((max 1 (getStatsBatchScopedInventory bsel allInv).length : ℕ) : ℚ)
          ≤ 1 := by
        rw [div_le_one hb]
        exact_mod_cast le_trans h1 h2
      calc (((getStatsBatchScopedInventory bsel allInv).filter
            (fun i => invStatus i == "sold")).length : ℚ)
          / ((max 1 (getStatsBatchScopedInventory bsel allInv).length : ℕ) : ℚ)
          * 100
          ≤ 1 * 100 := by
            apply mul_le_mul_of_nonneg_right hd
            norm_num
        _ = 100 := one_mul 100
  · intro pd st bsel allInv allSales exp h
    simp only [renderStats, h, List.filter_nil, List.length_nil]
    norm_num
  · intro allInv sales k hInv hSal hscope
    simp only [sellThroughEntry]
    by_cases h : invCountByCond allInv k = 0
    · rw [if_pos h]
      norm_num
    · rw [if_neg h]
      have hcount := soldCond_countP_le allInv sales k hInv hSal hscope
      have hsold : soldByCond (chartRows allInv sales) k
          = ((chartRows allInv sales).countP
              (fun r => normalizeCondition r.1.condition == k) : ℚ) :=
        soldByCond_eq _ _
      have htot : invCountByCond allInv k
          = (allInv.countP (fun i =>
              !(invStatus i == "exchanged")
                && (normalizeCondition i.condition == k)) : ℚ) :=
        invCountByCond_eq _ _
      have htotpos : 0 < invCountByCond allInv k := by
        rcases lt_or_eq_of_le (by rw [htot]; positivity :
          (0 : ℚ) ≤ invCountByCond allInv k) with hlt | heq
        · exact hlt
        · exact absurd heq.symm h
      have hle : soldByCond (chartRows allInv sales) k ≤ invCountByCond allInv k := by
        rw [hsold, htot]
        exact_mod_cast hcount
      constructor
      · apply mul_nonneg _ (by norm_num : (0 : ℚ) ≤ 100)
        apply div_nonneg _ (le_of_lt htotpos)
        rw [hsold]; positivity
      · calc soldByCond (chartRows allInv sales) k / invCountByCond allInv k * 100
            ≤ 1 * 100 := by
              apply mul_le_mul_of_nonneg_right _ (by norm_num : (0 : ℚ) ≤ 100)
              rw [div_le_one htotpos]
              exact hle
          _ = 100 := one_mul 100
  · intro allInv rows k h
    simp only [sellThroughEntry]
    rw [if_pos h]

theorem C4_sellThrough_bounds_witness :
    (([⟨"i1", "sold", "new_sealed", "", "2024-01-05", 20, 2⟩] : List Inv).map
      Inv.id).Nodup
    ∧ (([⟨"s1", "i1", "2024-02-01", 50, 0, 0, 5, "X", ""⟩] : List Sale).map
        Sale.inventoryId).Nodup
    ∧ (∀ s ∈ ([⟨"s1", "i1", "2024-02-01", 50, 0, 0, 5, "X", ""⟩] : List Sale),
        s.inventoryId ∈ soldInvIds
          [⟨"i1", "sold", "new_sealed", "", "2024-01-05", 20, 2⟩])
    ∧ 0 ≤ sellThroughEntry [⟨"i1", "sold", "new_sealed", "", "2024-01-05", 20, 2⟩]
        (chartRows [⟨"i1", "sold", "new_sealed", "", "2024-01-05", 20, 2⟩]
          [⟨"s1", "i1", "2024-02-01", 50, 0, 0, 5, "X", ""⟩]) "new_sealed"
    ∧ sellThroughEntry [⟨"i1", "sold", "new_sealed", "", "2024-01-05", 20, 2⟩]
        (chartRows [⟨"i1", "sold", "new_sealed", "", "2024-01-05", 20, 2⟩]
          [⟨"s1", "i1", "2024-02-01", 50, 0, 0, 5, "X", ""⟩]) "new_sealed" ≤ 100 := by
  have h := C4_sellThrough_bounds.2.2.1
    [⟨"i1", "sold", "new_sealed", "", "2024-01-05", 20, 2⟩]
    [⟨"s1", "i1", "2024-02-01", 50, 0, 0, 5, "X", ""⟩] "new_sealed"
    (by decide) (by decide) (by decide)
  exact ⟨by decide, by decide, by decide, h.1, h.2⟩

/-- C5.  `daysBetween` only ever returns a non-negative whole-day count
(the `Math.max(0, …)` clamp), returns `null` exactly when either date is
blank or fails to parse, and consequently the `renderStats` average
days-to-sell KPI — the rounded mean of the per-sale day counts over sales
where both dates parse — is always ≥ 0. -/
theorem C5_avgDays_nonneg :
    (∀ (pd : String → Option ℚ) (a b : String) (d : ℤ),
      daysBetween pd a b = some d → 0 ≤ d)
    ∧ (∀ (pd : String → Option ℚ) (a b : String),
      a = "" ∨ b = "" ∨ pd a = none ∨ pd b = none → daysBetween pd a b = none)
    ∧ (∀ (pd : String → Option ℚ) (a b : String) (x y : ℚ),
      ¬a = "" → ¬b = "" → pd a = some x → pd b = some y →
      daysBetween pd a b
        = some (max 0 (jsRound ((y - x) / (1000 * 60 * 60 * 24)))))
    ∧ (∀ (pd : String → Option ℚ) (st : Option String) (bsel : String)
      (allInv : List Inv) (allSales : List Sale) (exp : List Expense),
      0 ≤ (renderStats pd st bsel allInv allSales exp).avgDays) := by
  refine ⟨daysBetween_nonneg, ?_, ?_, ?_⟩
  · intro pd a b h
    rw [daysBetween]
    rcases h with h | h | h | h
    · simp [h]
    · simp [h]
    · by_cases he : (a = "" || b = "") = true
      · simp [he]
      · simp only [he, if_false, Bool.false_eq_true]
        rw [h]
    · by_cases he : (a = "" || b = "") = true
      · simp [he]
      · simp only [he, if_false, Bool.false_eq_true]
        cases hpa : pd a <;> simp [hpa, h]
  · intro pd a b x y ha hb hx hy
    rw [daysBetween]
    have he : (a = "" || b = "") = false := by simp [ha, hb]
    simp only [he, if_false, Bool.false_eq_true]
    rw [hx, hy]
  · intro pd st bsel allInv allSales exp
    simp only [renderStats]
    split_ifs with h
    · apply jsRound_nonneg
      apply div_nonneg
      · exact_mod_cast statsAcc_totalDays_nonneg pd allInv _ _ _ (by decide)
      · positivity
    · exact le_refl 0

theorem C5_avgDays_nonneg_witness :
    daysBetween (fun s => if s = "2024-01-05" then some 0 else some 2332800000)
      "2024-01-05" "2024-02-01" = some 27
    ∧ (0 : ℤ) ≤ 27 := by
  have hdb : daysBetween
      (fun s => if s = "2024-01-05" then some 0 else some 2332800000)
      "2024-01-05" "2024-02-01" = some 27 := by
    rw [daysBetween]
    norm_num [jsRound]
    refine ⟨⟨by decide, by decide⟩, ?_⟩
    rw [if_neg (by decide : ¬("2024-02-01" = "2024-01-05"))]
    norm_num
  exact ⟨hdb, C5_avgDays_nonneg.1
    (fun s => if s = "2024-01-05" then some 0 else some 2332800000)
    "2024-01-05" "2024-02-01" 27 hdb⟩

/-- C6 (counterexample).  The claim describes every `toNum` in the
repository as parsing currency strings after stripping `$`, `,` and
whitespace — but the variant-B / variant-C coercer applies `Number` directly,
so the currency string `"$1,234.56"` coerces to `0` there, while the
variant-A coercer yields `1234.56`. -/
theorem C6_counterexample :
    toNumB (JSVal.str "$1,234.56") = 0
    ∧ toNum (JSVal.str "$1,234.56") = 1234.56
    ∧ (0 : ℚ) ≠ (1234.56 : ℚ) := by
  refine ⟨?_, ?_, by norm_num⟩
  · have h : jsNumber "$1,234.56" = none := by decide
    show (jsNumber "$1,234.56").getD 0 = 0
    rw [h]; rfl
  · show (jsNumber (String.mk (((jsTrimL "$1,234.56".data).filter
      (fun c => c ≠ '$')).filter (fun c => c ≠ ',')))).getD 0 = 1234.56
    have hs : String.mk (((jsTrimL "$1,234.56".data).filter
        (fun c => c ≠ '$')).filter (fun c => c ≠ ',')) = "1234.56" := by decide
    rw [hs]
    have h1 : jsNumber "1234.56"
        = some ((digitsVal "1234".data : ℚ)
          + (digitsVal "56".data : ℚ) / (10 ^ "56".data.length)) := rfl
    rw [h1, Option.getD_some, (by decide : digitsVal "1234".data = 1234),
      (by decide : digitsVal "56".data = 56),
      (by decide : "56".data.length = 2)]
    norm_num

/-- C6 (amended).  Every `toNum` variant is total and returns a finite
number, substituting 0 for any non-finite parse.  The variant-A coercer
strips `$`, `,` and surrounding whitespace before parsing, so currency
strings parse to their numeric value; the variant-B / variant-C coercer
feeds the string to `Number` unchanged, so currency-formatted strings
coerce to 0. -/
theorem C6_amended :
    (∀ s : String,
      jsNumber (String.mk (((jsTrimL s.data).filter (fun c => c ≠ '$')).filter
        (fun c => c ≠ ','))) = none → toNum (JSVal.str s) = 0)
    ∧ (∀ (s : String) (q : ℚ),
      jsNumber (String.mk (((jsTrimL s.data).filter (fun c => c ≠ '$')).filter
        (fun c => c ≠ ','))) = some q → toNum (JSVal.str s) = q)
    ∧ (∀ s : String, jsNumber s = none → toNumB (JSVal.str s) = 0)
    ∧ (∀ (s : String) (q : ℚ), jsNumber s = some q → toNumB (JSVal.str s) = q)
    ∧ (∀ x : Option ℚ, toNum (JSVal.num x) = x.getD 0
        ∧ toNumB (JSVal.num x) = x.getD 0)
    ∧ toNum JSVal.vnull = 0 ∧ toNum JSVal.vundef = 0
    ∧ toNumB JSVal.vnull = 0 ∧ toNumB JSVal.vundef = 0 := by
  refine ⟨?_, ?_, ?_, ?_, fun x => ⟨rfl, rfl⟩, rfl, rfl, rfl, rfl⟩
  · intro s h
    show (jsNumber (String.mk (((jsTrimL s.data).filter
      (fun c => c ≠ '$')).filter (fun c => c ≠ ',')))).getD 0 = 0
    rw [h]; rfl
  · intro s q h
    show (jsNumber (String.mk (((jsTrimL s.data).filter
      (fun c => c ≠ '$')).filter (fun c => c ≠ ',')))).getD 0 = q
    rw [h]; rfl
  · intro s h
    show (jsNumber s).getD 0 = 0
    rw [h]; rfl
  · intro s q h
    show (jsNumber s).getD 0 = q
    rw [h]; rfl

theorem C6_amended_witness :
    jsNumber (String.mk (((jsTrimL "$5".data).filter (fun c => c ≠ '$')).filter
      (fun c => c ≠ ','))) = some 5
    ∧ toNum (JSVal.str "$5") = 5 := by
  have hj : jsNumber (String.mk (((jsTrimL "$5".data).filter
      (fun c => c ≠ '$')).filter (fun c => c ≠ ','))) = some 5 := by
    have hs : String.mk (((jsTrimL "$5".data).filter
        (fun c => c ≠ '$')).filter (fun c => c ≠ ',')) = "5" := by decide
    rw [hs]
    have h1 : jsNumber "5" = some ((digitsVal "5".data : ℚ)) := rfl
    rw [h1, (by decide : digitsVal "5".data = 5)]
    norm_num
  exact ⟨hj, C6_amended.2.1 "$5" 5 hj⟩

/-- C7.  The claim (and the spec's §3 invariant, and the code's own
"ONLY 4" comment) say `normalizeCondition` maps every string into the 4
canonical keys, returning unrecognised input as `"used_incomplete"`.  The
code checks membership with the truthiness of `CONDITION_LABELS[key]`; for a
key naming an inherited `Object.prototype` member — e.g. `"toString"` — that
read is a truthy function, so the code returns the bogus key unchanged.  The
exact-match and default behaviours of the claim hold on all other inputs. -/
theorem C7_normalizeCondition_proto_leak :
    normalizeCondition "toString" = "toString"
    ∧ "toString" ∉ condOrder
    ∧ normalizeCondition "new_sealed" = "new_sealed"
    ∧ normalizeCondition "new_openbox" = "new_openbox"
    ∧ normalizeCondition "used_complete" = "used_complete"
    ∧ normalizeCondition "used_incomplete" = "used_incomplete"
    ∧ normalizeCondition "" = "used_incomplete"
    ∧ normalizeCondition "Sealed" = "used_incomplete"
    ∧ normalizeCondition "valueOf" = "valueOf" := by
  decide

/-- C8.  Both condition breakdowns are built by mapping over the fixed
4-element `condOrder` list (sealed → open-box → complete → incomplete), so
they always have exactly 4 entries in that order, and a bucket in which no
(sold) row lands reports 0. -/
theorem C8_condition_breakdown :
    (∀ (alloc : AllocA) (rows : List (Inv × Sale)),
      (condProfitVals alloc rows).length = 4
      ∧ condProfitVals alloc rows
        = [profitByCond alloc rows "new_sealed",
           profitByCond alloc rows "new_openbox",
           profitByCond alloc rows "used_complete",
           profitByCond alloc rows "used_incomplete"]
      ∧ ∀ k, (∀ r ∈ rows, normalizeCondition r.1.condition ≠ k) →
          profitByCond alloc rows k = 0)
    ∧ (∀ (flips : List Flip) (expenses : List Expense),
      (condValsB flips expenses).length = 4
      ∧ condValsB flips expenses
        = [profitByCondB flips expenses "new_sealed",
           profitByCondB flips expenses "new_openbox",
           profitByCondB flips expenses "used_complete",
           profitByCondB flips expenses "used_incomplete"]
      ∧ ∀ k, (∀ f ∈ flips, isSold f = true → normalizeCondition f.condition ≠ k) →
          profitByCondB flips expenses k = 0) := by
  constructor
  · intro alloc rows
    exact ⟨rfl, rfl, fun k h => profitByCond_eq_zero alloc rows k h⟩
  · intro flips expenses
    exact ⟨rfl, rfl, fun k h => profitByCondB_eq_zero flips expenses k h⟩

theorem C8_condition_breakdown_witness :
    (∀ r ∈ ([] : List (Inv × Sale)),
      normalizeCondition (r.1.condition) ≠ "new_sealed")
    ∧ profitByCond (sumExpensesByType [] [] []) [] "new_sealed" = 0 :=
  ⟨by simp,
    (C8_condition_breakdown.1 (sumExpensesByType [] [] []) []).2.2 "new_sealed"
      (by simp)⟩

/-- C9.  A sale whose inventory reference does not resolve is silently
skipped: inserting it anywhere in the sale list changes neither the
`renderStats` KPI output (it is dropped by the sold-ids filter before the
loop, so it does not even inflate `sales.length`), nor the chart rows, nor
the expense allocator.  All functions are total, so no error is raised. -/
theorem C9_dangling_sale_skipped :
    ∀ (pd : String → Option ℚ) (st : Option String) (bsel : String)
      (allInv : List Inv) (expenses : List Expense) (s : Sale)
      (l₁ l₂ : List Sale),
      findInv allInv s.inventoryId = none →
      renderStats pd st bsel allInv (l₁ ++ s :: l₂) expenses
        = renderStats pd st bsel allInv (l₁ ++ l₂) expenses
      ∧ chartRows allInv (l₁ ++ s :: l₂) = chartRows allInv (l₁ ++ l₂)
      ∧ sumExpensesByType allInv expenses (l₁ ++ s :: l₂)
        = sumExpensesByType allInv expenses (l₁ ++ l₂) := by
  intro pd st bsel allInv expenses s l₁ l₂ h
  exact ⟨renderStats_skip pd st bsel allInv expenses s l₁ l₂ h,
    chartRows_skip allInv s l₁ l₂ h,
    sumExpensesByType_skip allInv expenses s l₁ l₂ h⟩

theorem C9_dangling_sale_skipped_witness :
    findInv [⟨"i1", "sold", "new_sealed", "", "2024-01-05", 20, 2⟩] "ghost" = none
    ∧ chartRows [⟨"i1", "sold", "new_sealed", "", "2024-01-05", 20, 2⟩]
        ([] ++ ⟨"s2", "ghost", "2024-03-01", 7, 0, 0, 0, "X", ""⟩ ::
          [⟨"s1", "i1", "2024-02-01", 50, 0, 0, 5, "X", ""⟩])
      = chartRows [⟨"i1", "sold", "new_sealed", "", "2024-01-05", 20, 2⟩]
        ([] ++ [⟨"s1", "i1", "2024-02-01", 50, 0, 0, 5, "X", ""⟩]) :=
  ⟨by decide,
    (C9_dangling_sale_skipped (fun _ => none) none "all"
      [⟨"i1", "sold", "new_sealed", "", "2024-01-05", 20, 2⟩] []
      ⟨"s2", "ghost", "2024-03-01", 7, 0, 0, 0, "X", ""⟩ []
      [⟨"s1", "i1", "2024-02-01", 50, 0, 0, 5, "X", ""⟩] (by decide)).2.1⟩

/-- C10.  `conditionFromText` tests substrings in the fixed order
sealed, open, complete, incomplete on the trimmed lower-cased input: any
non-blank input containing `"complete"` but neither `"sealed"` nor `"open"`
maps to `"used_complete"` — including inputs containing `"incomplete"`,
whose dedicated branch is unreachable — while a blank input maps to
`"used_incomplete"`. -/
theorem C10_conditionFromText_substring_order :
    (∀ v : String,
      jsToLower (jsTrimL v.data) ≠ [] →
      hasSub (jsToLower (jsTrimL v.data)) "complete".data = true →
      hasSub (jsToLower (jsTrimL v.data)) "sealed".data = false →
      hasSub (jsToLower (jsTrimL v.data)) "open".data = false →
      conditionFromText v = "used_complete")
    ∧ (∀ v : String, jsToLower (jsTrimL v.data) = [] →
      conditionFromText v = "used_incomplete")
    ∧ conditionFromText "Still INCOMPLETE, missing bags" = "used_complete" := by
  refine ⟨?_, ?_, by decide⟩
  · intro v hne hcomp hsea hopen
    have h0 : (jsToLower (jsTrimL v.data)).isEmpty = false := by
      cases hl : jsToLower (jsTrimL v.data) with
      | nil => exact absurd hl hne
      | cons c t => rfl
    rw [conditionFromText]
    simp only [h0, hcomp, hsea, hopen, Bool.false_eq_true, if_false, if_true]
  · intro v h
    rw [conditionFromText]
    simp [h]

theorem C10_conditionFromText_substring_order_witness :
    jsToLower (jsTrimL ("Incomplete".data)) ≠ []
    ∧ hasSub (jsToLower (jsTrimL ("Incomplete".data))) "complete".data = true
    ∧ hasSub (jsToLower (jsTrimL ("Incomplete".data))) "sealed".data = false
    ∧ hasSub (jsToLower (jsTrimL ("Incomplete".data))) "open".data = false
    ∧ conditionFromText "Incomplete" = "used_complete" :=
  ⟨by decide, by decide, by decide, by decide,
    C10_conditionFromText_substring_order.1 "Incomplete" (by decide) (by decide)
      (by decide) (by decide)⟩

end LegoFlip

